import Mathlib

/-!
Verification of the artifact pipeline and response-reconciliation logic of a
serverless 3D-avatar job handler (`handler.py`).

The development shallowly embeds the handler: JSON values are an inductive
type whose objects are insertion-ordered association lists (mirroring Python
dicts), external effects (the rendering-service POST, mesh download, the
external mesh-optimization tool, the object-storage put, base64 decoding,
JSON parsing of embedded texture payloads, the output-directory listing) are
oracles collected in an `Env` structure, and each side-effecting operation
the handler can perform is recorded in an explicit trace.
-/

set_option autoImplicit false

namespace UniRig

/-- JSON values.  Objects are insertion-ordered association lists, matching
Python dict semantics (insertion order preserved, assignment to an existing
key keeps its position, assignment to a fresh key appends). -/
inductive Json where
  | null
  | bool (b : Bool)
  | num (n : Int)
  | str (s : String)
  | arr (elems : List Json)
  | obj (fields : List (String × Json))
deriving Repr

/-- First binding of a key in an association list (Python dict lookup;
parsed JSON objects have unique keys, so first = the binding). -/
def alookup : List (String × Json) → String → Option Json
  | [], _ => none
  | (k, v) :: rest, key => if k = key then some v else alookup rest key

/-- Python dict assignment: replace the first binding of the key in place,
append a fresh binding at the end if the key is absent. -/
def aset : List (String × Json) → String → Json → List (String × Json)
  | [], key, v => [(key, v)]
  | (k, w) :: rest, key, v =>
      if k = key then (k, v) :: rest else (k, w) :: aset rest key v

/-- Python dict deletion / `pop`: remove every binding of the key
(parsed dicts have at most one). -/
def adel : List (String × Json) → String → List (String × Json)
  | [], _ => []
  | (k, w) :: rest, key =>
      if k = key then adel rest key else (k, w) :: adel rest key

/-- `d.get(key)` : key lookup, `none` on non-objects. -/
def Json.get? : Json → String → Option Json
  | .obj fields, k => alookup fields k
  | _, _ => none

/-- `d.get(key, default)`. -/
def Json.getD (j : Json) (k : String) (d : Json) : Json :=
  (j.get? k).getD d

/-- `d[key] = v` (no-op on non-objects; every assignment in the source is
guarded by an `isinstance(..., dict)` check). -/
def Json.setKey : Json → String → Json → Json
  | .obj fields, k, v => .obj (aset fields k v)
  | j, _, _ => j

/-- `del d[key]` / `d.pop(key, None)` (no-op on non-objects). -/
def Json.delKey : Json → String → Json
  | .obj fields, k => .obj (adel fields k)
  | j, _ => j

/-- Python truthiness of a JSON value. -/
def jsonTruthy : Json → Bool
  | .null => false
  | .bool b => b
  | .num n => n != 0
  | .str s => s ≠ ""
  | .arr xs => !xs.isEmpty
  | .obj fs => !fs.isEmpty

/-- Whether a JSON value is an object (`isinstance(x, dict)`). -/
def Json.isObj : Json → Bool
  | .obj _ => true
  | _ => false

/-- `d.get(key, default)` coerced to a string: the handler only ever reads
these fields off well-formed requests where they are strings. -/
def jstrD (j : Json) (k : String) (d : String) : String :=
  match j.get? k with
  | some (.str s) => s
  | _ => d

/-! ### Character-list string primitives

The handler relies on Python `in` (substring), `str.startswith`,
`str.endswith` and `str.replace`.  These are implemented here by structural
recursion over `List Char` so that every concrete instance reduces inside
the kernel. -/

/-- `charsLead pat s`: `pat` is a leading run of `s`. -/
def charsLead : List Char → List Char → Bool
  | [], _ => true
  | _ :: _, [] => false
  | a :: asx, b :: bs => a = b && charsLead asx bs

/-- `charsHave s pat`: `pat` occurs inside `s` (at any position). -/
def charsHave : List Char → List Char → Bool
  | [], pat => pat.isEmpty
  | c :: rest, pat => charsLead pat (c :: rest) || charsHave rest pat

/-- Python `pat in s` (substring containment). -/
def strContains (s pat : String) : Bool :=
  charsHave s.data pat.data

/-- Python `s.startswith(pat)`. -/
def strStarts (s pat : String) : Bool :=
  charsLead pat.data s.data

/-- Python `s.endswith(pat)`. -/
def strEnds (s pat : String) : Bool :=
  charsLead pat.data.reverse s.data.reverse

/-- Fuelled core of `str.replace`: replaces non-overlapping occurrences
left to right; fuel is the length of the haystack, which bounds the number
of steps. -/
def replChars : Nat → List Char → List Char → List Char → List Char
  | 0, hay, _, _ => hay
  | _ + 1, [], _, _ => []
  | fuel + 1, c :: rest, pat, rep =>
      if !pat.isEmpty && charsLead pat (c :: rest) then
        rep ++ replChars fuel ((c :: rest).drop pat.length) pat rep
      else
        c :: replChars fuel rest pat rep

/-- Python `s.replace(pat, rep)` (all non-overlapping occurrences,
left to right; empty pattern left unchanged, never used by the handler). -/
def strReplace (s pat rep : String) : String :=
  ⟨replChars s.data.length s.data pat.data rep.data⟩

/-! ### Artifact Locator (`find_output_files`)

The output directory is embedded as an optional listing of entries
(`none` = the directory does not exist).  Entry order is `os.listdir`
order; `glob.glob` scans the same directory, does not require regular
files, and skips names starting with a dot. -/

/-- One entry of the output directory: its name, whether it is a regular
file, and its modification time. -/
structure DirEntry where
  name : String
  isFile : Bool
  mtime : Nat
deriving Repr, DecidableEq

/-- `os.path.join(dir, name)`. -/
def pjoin (dir name : String) : String :=
  dir ++ "/" ++ name

/-- One step of the substring-match loop of `find_output_files`: skip
non-files and non-matching names; a matching `.glb` (resp. `.fbx`) name
overwrites the accumulated glb (resp. fbx) path. -/
def matchStep (dir model_id : String) (acc : String × String) (e : DirEntry) :
    String × String :=
  if e.isFile then
    if strContains e.name model_id then
      if strEnds e.name ".glb" then (pjoin dir e.name, acc.2)
      else if strEnds e.name ".fbx" then (acc.1, pjoin dir e.name)
      else acc
    else acc
  else acc

/-- `glob.glob(dir + "/*" + ext)` match: any entry (file or not) whose name
ends with `ext` and does not start with a dot. -/
def globMatch (ext : String) (e : DirEntry) : Bool :=
  strEnds e.name ext && !(strStarts e.name ".")

/-- `sorted(glob..., key=getmtime, reverse=True)[0]`: the first entry in
listing order achieving the maximal modification time among glob matches
(Python sort is stable, so ties keep listing order). -/
def pickLatest (ext : String) : List DirEntry → Option DirEntry
  | [] => none
  | e :: rest =>
      match pickLatest ext rest with
      | none => if globMatch ext e then some e else none
      | some a =>
          if globMatch ext e then
            if a.mtime > e.mtime then some a else some e
          else some a

/-- `find_output_files(model_id, output_dir)`: first the substring-match
scan over the listing, then for each extension still unresolved the
most-recently-modified fallback; `("", "")` when the directory is
missing. -/
def find_output_files (model_id dir : String) (listing : Option (List DirEntry)) :
    String × String :=
  match listing with
  | none => ("", "")
  | some entries =>
      let acc := entries.foldl (matchStep dir model_id) ("", "")
      if acc.1 = "" || acc.2 = "" then
        let g :=
          if acc.1 = "" then
            match pickLatest ".glb" entries with
            | some e => pjoin dir e.name
            | none => ""
          else acc.1
        let f :=
          if acc.2 = "" then
            match pickLatest ".fbx" entries with
            | some e => pjoin dir e.name
            | none => ""
          else acc.2
        (g, f)
      else acc

/-! ### Mesh Optimizer (`optimize_glb_before_rigging`)

The local filesystem is a list of existing paths; the three external
`gltf-transform` invocations are oracles described by an `OptOutcome`
(exit code plus whether the tool created its output file).  Every
filesystem-affecting step is recorded in a step trace. -/

/-- Characters strictly before the last occurrence of `sep`, or `none` if
`sep` does not occur. -/
def charsBeforeLast (sep : Char) (cs : List Char) : Option (List Char) :=
  match cs.reverse.dropWhile (· ≠ sep) with
  | [] => none
  | _ :: before => some before.reverse

/-- `os.path.dirname`: everything before the final slash ("" when there is
no slash). -/
def pyDirname (p : String) : String :=
  match charsBeforeLast '/' p.data with
  | some cs => ⟨cs⟩
  | none => ""

/-- `os.path.basename`: everything after the final slash. -/
def pyBasename (p : String) : String :=
  ⟨(p.data.reverse.takeWhile (· ≠ '/')).reverse⟩

/-- `os.path.splitext(name)[0]`: the name with its final extension
removed (unchanged when there is no dot). -/
def splitextBase (name : String) : String :=
  match charsBeforeLast '.' name.data with
  | some cs => ⟨cs⟩
  | none => name

/-- Outcome of the three external tool invocations: exit code and whether
the tool left its output file on disk. -/
structure OptOutcome where
  weldRC : Int
  weldCreates : Bool
  simplifyRC : Int
  simplifyCreates : Bool
  resizeRC : Int
  resizeCreates : Bool
deriving Repr, DecidableEq

/-- A recorded step of the optimization pipeline. -/
inductive OptStep where
  | weld (input output : String)
  | simplify (input output : String)
  | resize (input output : String)
  | copy (src dst : String)
  | remove (path : String)
deriving Repr, DecidableEq

/-- Add a path to the filesystem (idempotent). -/
def fsAdd (fs : List String) (p : String) : List String :=
  if p ∈ fs then fs else p :: fs

/-- `shutil.copy2(src, dst)`: `none` when the source is missing (the call
raises). -/
def copy2 (fs : List String) (src dst : String) : Option (List String) :=
  if src ∈ fs then some (fsAdd fs dst) else none

/-- The cleanup loop: `os.remove` each temp file distinct from both the
input and the output path (failures are swallowed; here removal always
succeeds). -/
def cleanupTemps (input output : String) (fs : List String) :
    List String → List String × List OptStep
  | [] => (fs, [])
  | f :: rest =>
      if f ≠ input && f ≠ output && decide (f ∈ fs) then
        let r := cleanupTemps input output (fs.filter (· ≠ f)) rest
        (r.1, .remove f :: r.2)
      else cleanupTemps input output fs rest

/-- Result of the optimization pipeline: the returned path, the final
filesystem, and the recorded steps. -/
structure OptResult where
  path : String
  fs : List String
  steps : List OptStep
deriving Repr, DecidableEq

/-- The source's `temp_welded` name, derived from the input path. -/
def temp_welded (input_path : String) : String :=
  pyDirname input_path ++ "/" ++ splitextBase (pyBasename input_path) ++ "_welded.glb"

/-- The source's `temp_simplified` name, derived from the input path. -/
def temp_simplified (input_path : String) : String :=
  pyDirname input_path ++ "/" ++ splitextBase (pyBasename input_path) ++ "_simplified.glb"

/-- The filesystem after the weld invocation (the tool may or may not have
left its output file). -/
def fsAfterWeld (oc : OptOutcome) (fs0 : List String) (input_path : String) :
    List String :=
  if oc.weldCreates then fsAdd fs0 (temp_welded input_path) else fs0

/-- The source's (possibly reassigned) `temp_welded` variable after the
failure check: the original input on non-zero exit or missing output. -/
def weldOut (oc : OptOutcome) (fs0 : List String) (input_path : String) : String :=
  if oc.weldRC ≠ 0 || temp_welded input_path ∉ fsAfterWeld oc fs0 input_path then
    input_path
  else temp_welded input_path

/-- The filesystem after the simplify invocation. -/
def fsAfterSimplify (oc : OptOutcome) (fs0 : List String) (input_path : String) :
    List String :=
  if oc.simplifyCreates then
    fsAdd (fsAfterWeld oc fs0 input_path) (temp_simplified input_path)
  else fsAfterWeld oc fs0 input_path

/-- The source's (possibly reassigned) `temp_simplified` variable after the
failure check. -/
def simplifyOut (oc : OptOutcome) (fs0 : List String) (input_path : String) : String :=
  if oc.simplifyRC ≠ 0 ||
      temp_simplified input_path ∉ fsAfterSimplify oc fs0 input_path then
    weldOut oc fs0 input_path
  else temp_simplified input_path

/-- The filesystem after the resize invocation. -/
def fsAfterResize (oc : OptOutcome) (fs0 : List String)
    (input_path output_path : String) : List String :=
  if oc.resizeCreates then fsAdd (fsAfterSimplify oc fs0 input_path) output_path
  else fsAfterSimplify oc fs0 input_path

/-- `optimize_glb_before_rigging(input_path, output_path)`: weld →
simplify → resize, each stage on failure (non-zero exit or missing output
file) falling back to its input; on resize failure the pre-resize file is
copied to the declared output path; temp files distinct from the input and
output are removed at the end. -/
def optimize_glb_before_rigging (oc : OptOutcome) (fs0 : List String)
    (input_path output_path0 : String) : OptResult :=
  if input_path = "" || input_path ∉ fs0 then ⟨input_path, fs0, []⟩
  else
    let output_path :=
      if output_path0 = "" then strReplace input_path ".glb" "_preopt.glb"
      else output_path0
    let w := weldOut oc fs0 input_path
    let s := simplifyOut oc fs0 input_path
    let fs3 := fsAfterResize oc fs0 input_path output_path
    let steps :=
      [OptStep.weld input_path (temp_welded input_path),
       OptStep.simplify w (temp_simplified input_path),
       OptStep.resize s output_path]
    if oc.resizeRC ≠ 0 || output_path ∉ fs3 then
      match copy2 fs3 s output_path with
      | some fs4 =>
          let r5 := cleanupTemps input_path output_path fs4 [w, s]
          ⟨output_path, r5.1, steps ++ [.copy s output_path] ++ r5.2⟩
      | none =>
          -- the copy raised: caught by the outer handler, which copies the
          -- original input to the output path (unreachable: `s` exists)
          if input_path ≠ output_path && output_path ≠ "" then
            match copy2 fs3 input_path output_path with
            | some fs4 => ⟨output_path, fs4, steps ++ [.copy input_path output_path]⟩
            | none => ⟨input_path, fs3, steps⟩
          else ⟨input_path, fs3, steps⟩
    else
      let r5 := cleanupTemps input_path output_path fs3 [w, s]
      ⟨output_path, r5.1, steps ++ r5.2⟩

/-! ### Environment, storage uploads and the response pipeline

External collaborators are oracles: the rendering-service POST (`post`,
`.error` = timeout or dispatch exception), the mesh download (`download`,
returning `""` on failure as the source does), the external optimization
tool (`optimize`, mapping the downloaded path and requested output path to
the path `optimize_glb_before_rigging` returns), the local filesystem
(`fs`, used by the post-rig compress and the uploads), the output
directory listing (`listing`), object storage (`s3PutOk`, success of a
`put_object` by key), `json.loads` on embedded texture payloads
(`parseJson`), base64 decoding (`b64decode`), and the wall clock (`now`).

Each `put_object` call, each compress invocation, and each
`find_output_files` invocation is recorded as an `Op` so that theorems can
speak about which operations ran. -/

/-- The rendering-service HTTP response. -/
structure HttpResp where
  status_code : Int
  content_type : String
  jsonBody : Option Json
  text : String

/-- Oracles for all external collaborators of the handler. -/
structure Env where
  post : Except String HttpResp
  download : String → String
  optimize : String → String → String
  fs : List String
  listing : Option (List DirEntry)
  s3PutOk : String → Bool
  parseJson : String → Option Json
  b64decode : String → Option Nat
  now : Nat

/-- A side-effecting operation performed by the handler. -/
inductive Op where
  | locate
  | compress (path : String)
  | putTexture (key : String)
  | putModel (key : String)
  | putClothing (key : String)
deriving Repr, DecidableEq

/-- Default of the `S3_BUCKET` environment variable. -/
def S3_BUCKET : String := "endure-media"

/-- Default of the `AWS_REGION` environment variable. -/
def AWS_REGION : String := "us-west-1"

/-- Default of the texture key namespace environment variable
(`avatar-textures/`). -/
def texturesKeyBase : String := "avatar-textures/"

/-- Default of the clothing key namespace environment variable
(`avatars/`). -/
def clothingKeyBase : String := "avatars/"

/-- The public URL deterministically constructed from bucket, region and
key. -/
def s3Url (key : String) : String :=
  "https://" ++ S3_BUCKET ++ ".s3." ++ AWS_REGION ++ ".amazonaws.com/" ++ key

/-- One iteration of the upload loop of `upload_textures_to_s3`: skip
items with a falsy payload, drop items whose decode or put raises
(per-item exceptions are caught and the item skipped), otherwise put the
decoded bytes and emit the uploaded-texture record. -/
def textureItemStep (env : Env) (model_id : String) (item : Json) :
    List Json × List Op :=
  match item with
  | Json.obj _ =>
      let data_b64 := item.getD "data_base64" (Json.str "")
      if jsonTruthy data_b64 then
        match data_b64 with
        | Json.str sb =>
            match env.b64decode sb with
            | some _ =>
                let name := jstrD item "name" "texture"
                let key := texturesKeyBase ++ model_id ++ "/" ++ name ++ ".png"
                if env.s3PutOk key then
                  ([Json.obj [("name", Json.str name),
                              ("type", item.getD "type" (Json.str "unknown")),
                              ("url", Json.str (s3Url key)),
                              ("width", item.getD "width" Json.null),
                              ("height", item.getD "height" Json.null)]],
                   [Op.putTexture key])
                else ([], [Op.putTexture key])
            | none => ([], [])
        | _ => ([], [])
      else ([], [])
  | _ => ([], [])

/-- The upload loop of `upload_textures_to_s3` over the parsed texture
list, in order. -/
def uploadTextureItems (env : Env) (model_id : String) :
    List Json → List Json × List Op
  | [] => ([], [])
  | item :: rest =>
      let here := textureItemStep env model_id item
      let there := uploadTextureItems env model_id rest
      (here.1 ++ there.1, here.2 ++ there.2)

/-- `upload_textures_to_s3(textures_json, model_id)`: empty or literal
`"[]"` payloads and unparsable payloads yield no uploads; a parsed falsy
collection yields no uploads; a parsed list is uploaded item by item.
Iterating a truthy non-list parse result raises out of the function
(`.error`). -/
def upload_textures_to_s3 (env : Env) (textures_json model_id : String) :
    Except String (List Json × List Op) :=
  if textures_json = "" ∨ textures_json = "[]" then .ok ([], [])
  else
    match env.parseJson textures_json with
    | none => .ok ([], [])
    | some t =>
        if jsonTruthy t then
          match t with
          | Json.arr items => .ok (uploadTextureItems env model_id items)
          | _ => .error "iterating a truthy non-list textures value raises"
        else .ok ([], [])

/-- The storage key of a rigged model:
`avatars/rigged/` + model_id + `.` + file_type. -/
def rigKey (model_id file_type : String) : String :=
  "avatars/rigged/" ++ model_id ++ "." ++ file_type

/-- `upload_rigged_model_to_s3(local_path, model_id, file_type)`: empty
string on a missing file or a failed put, otherwise the constructed URL. -/
def upload_rigged_model_to_s3 (env : Env) (fs : List String)
    (local_path model_id file_type : String) : String × List Op :=
  if local_path = "" ∨ local_path ∉ fs then ("", [])
  else
    let key := rigKey model_id file_type
    if env.s3PutOk key then (s3Url key, [Op.putModel key])
    else ("", [Op.putModel key])

/-- `compress_rigged_glb(input_path)`: pass-through copy to
`input_path.replace(".glb", "_final.glb")`; on a missing input (or a copy
onto itself, which raises) the input path is returned unchanged. -/
def compress_rigged_glb (fs : List String) (input_path : String) :
    String × List String :=
  if input_path = "" ∨ input_path ∉ fs then (input_path, fs)
  else
    let output_path := strReplace input_path ".glb" "_final.glb"
    if output_path = input_path then (input_path, fs)
    else (output_path, fsAdd fs output_path)

/-- The storage key of a clothing artifact:
the clothing namespace + user_id + `/clothing/` + garment_id + `.glb`. -/
def clothingKey (user_id garment_id : String) : String :=
  clothingKeyBase ++ user_id ++ "/clothing/" ++ garment_id ++ ".glb"

/-- `upload_clothing_to_s3(local_path, user_id, garment_id)`: empty string
on a missing file or failed put. -/
def upload_clothing_to_s3 (env : Env) (fs : List String)
    (local_path user_id garment_id : String) : String × List Op :=
  if local_path ∉ fs then ("", [])
  else
    let key := clothingKey user_id garment_id
    if env.s3PutOk key then (s3Url key, [Op.putClothing key])
    else ("", [Op.putClothing key])

/-- The scan over the `outputs` mapping for an embedded texture payload:
a dict entry carrying `textures_json` yields its value and stops; a
sequence entry of length at least three yields its third element and
stops; other entries are skipped. -/
def scanOutputsForTextures : List (String × Json) → Option Json
  | [] => none
  | (_, node) :: rest =>
      match node with
      | Json.obj fields =>
          match alookup fields "textures_json" with
          | some v => some v
          | none => scanOutputsForTextures rest
      | Json.arr xs =>
          if xs.length ≥ 3 then xs.get? 2
          else scanOutputsForTextures rest
      | _ => scanOutputsForTextures rest

/-- Texture-payload extraction: top-level `textures_json` first, then the
scan over `outputs`; `none` on non-objects and when nothing matches. -/
def extractTexturesJson (api : Json) : Option Json :=
  match api with
  | Json.obj fields =>
      match alookup fields "textures_json" with
      | some v => some v
      | none =>
          match alookup fields "outputs" with
          | some (Json.obj outs) => scanOutputsForTextures outs
          | _ => none
  | _ => none

/-- Whether a JSON value is the given string literal. -/
def isStrEq (v : Json) (s : String) : Bool :=
  match v with
  | Json.str t => t = s
  | _ => false

/-- The texture branch of the handler: when the extracted payload is
truthy and not the literal string `"[]"`, upload it; a truthy non-string
payload raises a `TypeError` out of the branch (caught only by the
top-level dispatch handler). -/
def textureStage (env : Env) (model_id : String) (tj : Option Json) :
    Except String (List Json × List Op) :=
  match tj with
  | none => .ok ([], [])
  | some v =>
      if jsonTruthy v && !(isStrEq v "[]") then
        match v with
        | Json.str s => upload_textures_to_s3 env s model_id
        | _ => .error "json.loads of a non-string payload raises TypeError"
      else .ok ([], [])

/-- The response rewrite after texture upload: when at least one texture
uploaded, attach the uploaded list, delete the top-level `textures_json`
field, and pop `textures_json` from every dict-shaped entry of `outputs`;
with no uploaded textures the response is untouched. -/
def stripTextures (api : Json) (texture_urls : List Json) : Json :=
  match texture_urls with
  | [] => api
  | _ =>
      match api with
      | Json.obj _ =>
          let a1 := api.setKey "texture_urls" (Json.arr texture_urls)
          let a2 :=
            if (a1.get? "textures_json").isSome then a1.delKey "textures_json"
            else a1
          match a2.get? "outputs" with
          | some (Json.obj outs) =>
              a2.setKey "outputs" (Json.obj (outs.map fun kv =>
                if kv.2.isObj then (kv.1, kv.2.delKey "textures_json") else kv))
          | _ => a2
      | _ => api

/-- The GLB half of the rig-avatar branch: on a located GLB, compress it,
upload the compressed file, and remove the pre-optimized input file; the
result carries the URL (possibly empty), the filesystem and the recorded
operations. -/
def rigGlbStep (env : Env) (fs : List String) (optPath : Option String)
    (model_id glb_path : String) : String × List String × List Op :=
  if glb_path ≠ "" then
    let c := compress_rigged_glb fs glb_path
    let u := upload_rigged_model_to_s3 env c.2 c.1 model_id "glb"
    let fsB :=
      match optPath with
      | some p => if p ≠ "" && decide (p ∈ c.2) then c.2.filter (· ≠ p) else c.2
      | none => c.2
    (u.1, fsB, Op.compress glb_path :: u.2)
  else ("", fs, ([] : List Op))

/-- The FBX half of the rig-avatar branch: upload a located FBX as-is. -/
def rigFbxStep (env : Env) (fs : List String) (model_id fbx_path : String) :
    String × List Op :=
  if fbx_path ≠ "" then upload_rigged_model_to_s3 env fs fbx_path model_id "fbx"
  else ("", [])

/-- The rig-avatar branch: locate GLB/FBX outputs, compress the GLB,
upload both (empty URL on any failure), remove the pre-optimized input
file if one exists, and set `glb_output_path` / `fbx_output_path` on
object-shaped responses. -/
def rigStage (env : Env) (fs : List String) (optPath : Option String)
    (model_id : String) (api : Json) : Json × List String × List Op :=
  let found := find_output_files model_id "/opt/ComfyUI/output" env.listing
  let glbRes := rigGlbStep env fs optPath model_id found.1
  let fbxRes := rigFbxStep env glbRes.2.1 model_id found.2
  let api' :=
    if api.isObj then
      (api.setKey "glb_output_path" (Json.str glbRes.1)).setKey
        "fbx_output_path" (Json.str fbxRes.1)
    else api
  (api', glbRes.2.1, Op.locate :: glbRes.2.2 ++ fbxRes.2)

/-- The fixed set of path-bearing keys probed on dict-shaped clothing
outputs. -/
def pathKeys : List String := ["rigged_garment_path", "combined_path", "output_path"]

/-- The path a sequence-shaped outputs entry bears: a first element that
is a string ending in `.glb`. -/
def seqPBPath : Json → Option String
  | Json.arr (Json.str p :: _) => if strEnds p ".glb" then some p else none
  | _ => none

/-- The path the inner key loop would find in a dict entry: the first
probed key holding a `.glb` string. -/
def firstKeyPath (fields : List (String × Json)) : List String → Option String
  | [] => none
  | k :: ks =>
      match alookup fields k with
      | some (Json.str p) =>
          if strEnds p ".glb" then some p else firstKeyPath fields ks
      | some _ => firstKeyPath fields ks
      | none => firstKeyPath fields ks

/-- The path a dict-shaped outputs entry bears. -/
def dictPBPath : Json → Option String
  | Json.obj fields => firstKeyPath fields pathKeys
  | _ => none

/-- The inner key loop over a dict-shaped outputs entry: the first probed
key holding a `.glb` string path is uploaded and ends the key loop
(`some url`, where the url may be empty on upload failure); keys holding
anything else do not end the loop. -/
def clothingScanKeys (env : Env) (fs : List String) (user_id garment_id : String)
    (fields : List (String × Json)) : List String → Option String × List Op
  | [] => (none, [])
  | k :: ks =>
      match alookup fields k with
      | some (Json.str p) =>
          if strEnds p ".glb" then
            let u := upload_clothing_to_s3 env fs p user_id garment_id
            (some u.1, u.2)
          else clothingScanKeys env fs user_id garment_id fields ks
      | some _ => clothingScanKeys env fs user_id garment_id fields ks
      | none => clothingScanKeys env fs user_id garment_id fields ks

/-- The scan over the `outputs` mapping for a clothing output path.  A
sequence entry whose first element is a `.glb` string path is uploaded and
BREAKS the outer scan; a dict entry runs the inner key loop (possibly
overwriting the accumulated url) and the outer scan CONTINUES; all other
entries are skipped. -/
def clothingScan (env : Env) (fs : List String) (user_id garment_id : String) :
    List (String × Json) → Option String → Option String × List Op
  | [], acc => (acc, [])
  | (_, node) :: rest, acc =>
      match node with
      | Json.arr (x :: _) =>
          match x with
          | Json.str p =>
              if strEnds p ".glb" then
                let u := upload_clothing_to_s3 env fs p user_id garment_id
                (some u.1, u.2)
              else clothingScan env fs user_id garment_id rest acc
          | _ => clothingScan env fs user_id garment_id rest acc
      | Json.obj fields =>
          let here := clothingScanKeys env fs user_id garment_id fields pathKeys
          let acc' :=
            match here.1 with
            | some u => some u
            | none => acc
          let there := clothingScan env fs user_id garment_id rest acc'
          (there.1, here.2 ++ there.2)
      | _ => clothingScan env fs user_id garment_id rest acc

/-- The clothing-fitting branch: scan `outputs` for a path-bearing entry;
only when the final accumulated url is truthy are `clothing_url`,
`user_id` and `garment_id` attached to the response. -/
def clothingStage (env : Env) (fs : List String) (user_id garment_id : String)
    (api : Json) : Json × List Op :=
  match api with
  | Json.obj fields =>
      let scanned :=
        match alookup fields "outputs" with
        | some (Json.obj outs) => clothingScan env fs user_id garment_id outs none
        | _ => (none, [])
      match scanned.1 with
      | some u =>
          if u ≠ "" then
            (((api.setKey "clothing_url" (Json.str u)).setKey
                "user_id" (Json.str user_id)).setKey
                "garment_id" (Json.str garment_id), scanned.2)
          else (api, scanned.2)
      | none => (api, scanned.2)
  | _ => (api, [])

/-- The JSON-response pipeline of the handler: texture extraction and
upload (which can raise), the response rewrite, then the rig-avatar and
clothing branches as selected by the endpoint. -/
def processJsonResponse (env : Env) (optPath : Option String)
    (model_id user_id garment_id : String) (is_rig is_clothing : Bool)
    (api : Json) : Except String (Json × List Op) :=
  match textureStage env model_id (extractTexturesJson api) with
  | .error e => .error e
  | .ok tex =>
      let api1 := stripTextures api tex.1
      let r :=
        if is_rig then rigStage env env.fs optPath model_id api1
        else (api1, env.fs, ([] : List Op))
      let c :=
        if is_clothing then clothingStage env r.2.1 user_id garment_id r.1
        else (r.1, ([] : List Op))
      .ok (c.1, tex.2 ++ r.2.2 ++ c.2)

/-- The `response` field of a Job Result Envelope: parsed JSON or raw
text, by content type. -/
inductive RespVal where
  | jsonV (j : Json)
  | textV (s : String)
deriving Repr

/-- The Job Result Envelope. -/
structure Envelope where
  status : String
  status_code : Option Int
  response : Option RespVal
  error : Option String
deriving Repr

/-- The error envelope `{status: "error", error: msg}`. -/
def mkError (msg : String) : Envelope := ⟨"error", none, none, some msg⟩

/-- The success envelope `{status: "success", status_code, response}`. -/
def mkSuccess (code : Int) (v : RespVal) : Envelope :=
  ⟨"success", some code, some v, none⟩

/-- Everything one invocation produces: the envelope, the recorded
operations, the body dispatched to the rendering service, and the
caller-visible job object after the invocation (the handler mutates it in
place). -/
structure HandlerRes where
  result : Envelope
  trace : List Op
  dispatched : Json
  jobAfter : Json
deriving Repr

/-- A key that, when present, holds a string. -/
def strOrAbsent (j : Json) (k : String) : Bool :=
  match j.get? k with
  | none => true
  | some (Json.str _) => true
  | some _ => false

/-- Well-formedness of a job per the Job Request data model: the fields
the handler reads before its try-block are objects and strings where the
source indexes them as such (a violation would raise out of `handler`
before any envelope is built). -/
def jobWf (job : Json) : Bool :=
  job.isObj &&
    match job.get? "input" with
    | none => true
    | some ji =>
        ji.isObj && strOrAbsent ji "endpoint" &&
          (let body := ji.getD "body" ji
           body.isObj &&
             match body.get? "input" with
             | none => true
             | some bi =>
                 bi.isObj && strOrAbsent bi "output_name" &&
                   strOrAbsent bi "user_id" && strOrAbsent bi "garment_id" &&
                   strOrAbsent bi "mesh_url")

/-- `body["input"]["mesh_url"] = v` (the source reaches this assignment
only when `body["input"]` exists). -/
def setMeshUrl (body : Json) (v : String) : Json :=
  match body.get? "input" with
  | some bi => body.setKey "input" (bi.setKey "mesh_url" (Json.str v))
  | none => body

/-- The source's `job_input`: key `input` of the job, empty dict default. -/
def jobInput (job : Json) : Json := job.getD "input" (Json.obj [])

/-- The source's `endpoint`: key `endpoint` of `job_input`, default
`/prompt`. -/
def jobEndpoint (job : Json) : String := jstrD (jobInput job) "endpoint" "/prompt"

/-- The source's `body`: key `body` of `job_input`, defaulting to
`job_input` itself. -/
def jobBody (job : Json) : Json := (jobInput job).getD "body" (jobInput job)

/-- The source's `input_data`: key `input` of the body, empty dict
default. -/
def jobData (job : Json) : Json := (jobBody job).getD "input" (Json.obj [])

/-- The source's `model_id`: key `output_name` of `input_data`, with the
wall-clock synthetic default. -/
def jobModelId (now : Nat) (job : Json) : String :=
  jstrD (jobData job) "output_name" ("model_" ++ toString now)

/-- `user_id = input_data.get("user_id", "anonymous")`. -/
def jobUserId (job : Json) : String := jstrD (jobData job) "user_id" "anonymous"

/-- `garment_id = input_data.get("garment_id", model_id)`. -/
def jobGarmentId (now : Nat) (job : Json) : String :=
  jstrD (jobData job) "garment_id" (jobModelId now job)

/-- `mesh_url = input_data.get("mesh_url", "")`. -/
def jobMeshUrl (job : Json) : String := jstrD (jobData job) "mesh_url" ""

/-- The mesh URL as reachable inside a request body (used to observe the
dispatched body). -/
def bodyMeshUrl (body : Json) : String :=
  jstrD (body.getD "input" (Json.obj [])) "mesh_url" ""

/-- The pre-optimization decision of the handler: for a rig-avatar job
with a non-empty mesh URL whose download succeeds, the path returned by
the optimization pipeline; `none` otherwise (no mutation happens). -/
def preOptPath (env : Env) (job : Json) : Option String :=
  if strContains (jobEndpoint job) "rig-avatar" && jobMeshUrl job ≠ "" &&
      env.download (jobMeshUrl job) ≠ "" then
    some (env.optimize (env.download (jobMeshUrl job))
      (strReplace (env.download (jobMeshUrl job)) ".glb" "_preopt.glb"))
  else none

/-- `handler(job)`: endpoint routing by substring, the pre-rig download
and optimization with in-place mutation of the request body, the dispatch
to the rendering service, and the response pipeline; dispatch failures
produce the error envelope. -/
def handler (env : Env) (job : Json) : HandlerRes :=
  let endpoint := jobEndpoint job
  let body := jobBody job
  let model_id := jobModelId env.now job
  let user_id := jobUserId job
  let garment_id := jobGarmentId env.now job
  let is_clothing := strContains endpoint "fit-clothing"
  let is_rig := strContains endpoint "rig-avatar"
  let optPath := preOptPath env job
  let body' :=
    match optPath with
    | some opt => setMeshUrl body opt
    | none => body
  let job' :=
    match optPath with
    | some _ =>
        match job.get? "input" with
        | some ji =>
            match ji.get? "body" with
            | some _ => job.setKey "input" (ji.setKey "body" body')
            | none => job.setKey "input" body'
        | none => job
    | none => job
  match env.post with
  | .error msg => ⟨mkError msg, [], body', job'⟩
  | .ok resp =>
      if strStarts resp.content_type "application/json" then
        match resp.jsonBody with
        | none => ⟨mkError "response body is not valid JSON", [], body', job'⟩
        | some api =>
            match processJsonResponse env optPath model_id user_id garment_id
                is_rig is_clothing api with
            | .error e => ⟨mkError e, [], body', job'⟩
            | .ok out => ⟨mkSuccess resp.status_code (.jsonV out.1), out.2, body', job'⟩
      else ⟨mkSuccess resp.status_code (.textV resp.text), [], body', job'⟩

/-! ### Concrete scenario data -/

/-- A texture item with a decodable payload, used by concrete scenarios. -/
def texItem : Json :=
  Json.obj [("name", Json.str "baseColor"), ("data_base64", Json.str "QUJD")]

/-- A parse oracle recognizing one opaque payload string and one payload
parsing to the empty collection. -/
def parse1 : String → Option Json :=
  fun s =>
    if s = "tex-payload-1" then some (Json.arr [texItem])
    else if s = "empty-payload" then some (Json.arr []) else none

/-- A plain-endpoint response carrying a top-level texture payload. -/
def apiC2 : Json := Json.obj [("textures_json", Json.str "tex-payload-1")]

/-- Environment for the plain-endpoint texture scenario. -/
def envC2 : Env :=
  { post := .ok ⟨200, "application/json", some apiC2, ""⟩
    download := fun _ => ""
    optimize := fun _ o => o
    fs := []
    listing := none
    s3PutOk := fun _ => true
    parseJson := parse1
    b64decode := fun _ => some 3
    now := 0 }

/-- A job whose endpoint matches neither workflow kind. -/
def jobC2 : Json :=
  Json.obj [("input", Json.obj
    [("endpoint", Json.str "/prompt"),
     ("body", Json.obj [("input", Json.obj [("output_name", Json.str "m1")])])])]

/-- The uploaded-texture record produced for `texItem` under model `m1`. -/
def texUploadedRec : Json :=
  Json.obj [("name", Json.str "baseColor"), ("type", Json.str "unknown"),
            ("url", Json.str (s3Url "avatar-textures/m1/baseColor.png")),
            ("width", Json.null), ("height", Json.null)]

/-- The texture-upload environment with a rendering service that timed
out. -/
def envTimeout : Env :=
  { envC2 with post := .error "Request timed out after 300 seconds" }

/-- The JSON response inside a handler result, when there is one. -/
def respJsonOf (r : HandlerRes) : Option Json :=
  match r.result.response with
  | some (RespVal.jsonV j) => some j
  | _ => none

/-- A response whose texture payload sits in a sequence-shaped `outputs`
entry (third element). -/
def apiC3 : Json :=
  Json.obj [("outputs", Json.obj
    [("9", Json.arr [Json.str "a.fbx", Json.str "a.glb",
                     Json.str "tex-payload-1"])])]

/-- Environment returning the sequence-shaped texture response. -/
def envC3 : Env :=
  { envC2 with post := .ok ⟨200, "application/json", some apiC3, ""⟩ }

/-- A rig-avatar job for model `m1` without a mesh URL. -/
def jobC7 : Json :=
  Json.obj [("input", Json.obj
    [("endpoint", Json.str "/workflow/rig-avatar"),
     ("body", Json.obj [("input", Json.obj [("output_name", Json.str "m1")])])])]

/-- Environment for the rig-avatar scenario: both artifacts present in the
output directory and every put succeeding. -/
def envC7 : Env :=
  { envC2 with
    post := .ok ⟨200, "application/json", some (Json.obj []), ""⟩
    fs := ["/opt/ComfyUI/output/m1.glb", "/opt/ComfyUI/output/m1.fbx"]
    listing := some [⟨"m1.glb", true, 1⟩, ⟨"m1.fbx", true, 1⟩] }

/-- A rig-avatar response carrying a truthy non-string texture payload. -/
def apiC7tex : Json := Json.obj [("textures_json", Json.num 1)]

/-- Environment returning the raising texture payload to a rig-avatar
job. -/
def envC7tex : Env :=
  { envC7 with post := .ok ⟨200, "application/json", some apiC7tex, ""⟩ }

/-- A clothing response whose outputs hold a dict-shaped path entry
followed by a sequence-shaped one. -/
def apiC8 : Json :=
  Json.obj [("outputs", Json.obj
    [("1", Json.obj [("output_path", Json.str "/out/a.glb")]),
     ("2", Json.arr [Json.str "/out/b.glb"])])]

/-- A clothing-fitting job for user `u1`, garment `g1`. -/
def jobC8 : Json :=
  Json.obj [("input", Json.obj
    [("endpoint", Json.str "/workflow/fit-clothing"),
     ("body", Json.obj [("input", Json.obj
        [("output_name", Json.str "m1"), ("user_id", Json.str "u1"),
         ("garment_id", Json.str "g1")])])])]

/-- Environment for the clothing scenario: both referenced files exist and
every put succeeds. -/
def envC8 : Env :=
  { envC2 with
    post := .ok ⟨200, "application/json", some apiC8, ""⟩
    fs := ["/out/a.glb", "/out/b.glb"] }

/-- A rig-avatar job carrying a remote mesh URL. -/
def jobC10 : Json :=
  Json.obj [("input", Json.obj
    [("endpoint", Json.str "/workflow/rig-avatar"),
     ("body", Json.obj [("input", Json.obj
        [("output_name", Json.str "m1"),
         ("mesh_url", Json.str "https://x/mesh.glb")])])])]

/-- Environment for the mutation scenario: the download succeeds and the
optimizer returns its requested output path. -/
def envC10 : Env :=
  { envC7 with
    download := fun u =>
      if u = "https://x/mesh.glb" then "/in/downloaded_mesh.glb" else ""
    optimize := fun _ o => o }

/-- A listing entry the substring-match loop records as the GLB path: a
regular file whose name contains the job identifier and ends in `.glb`. -/
def glbMatch (model_id : String) (e : DirEntry) : Bool :=
  e.isFile && strContains e.name model_id && strEnds e.name ".glb"

/-- A listing entry the substring-match loop records as the FBX path. -/
def fbxMatch (model_id : String) (e : DirEntry) : Bool :=
  e.isFile && strContains e.name model_id && !strEnds e.name ".glb" &&
    strEnds e.name ".fbx"

/-! ### Basic evaluations -/

example : strContains "/workflow/rig-avatar" "rig-avatar" = true := by decide
example : strContains "/prompt" "rig-avatar" = false := by decide
example : strEnds "avatar_42.glb" ".glb" = true := by decide
example : strEnds "avatar_42.fbx" ".glb" = false := by decide
example : strReplace "/in/mesh.glb" ".glb" "_preopt.glb" = "/in/mesh_preopt.glb" := by decide
example : strReplace "a.glb.glb" ".glb" "_final.glb" = "a_final.glb_final.glb" := by decide

example :
    find_output_files "avatar_42" "/out"
      (some [⟨"avatar_7.glb", true, 5⟩, ⟨"avatar_42.glb", true, 3⟩]) =
      ("/out/avatar_42.glb", "") := by decide
example :
    find_output_files "avatar_42" "/out"
      (some [⟨"other.glb", true, 5⟩]) = ("/out/other.glb", "") := by decide

example :
    (optimize_glb_before_rigging ⟨0, true, 0, true, 0, true⟩
      ["/in/downloaded_m.glb"] "/in/downloaded_m.glb" "/in/downloaded_m_preopt.glb").path =
      "/in/downloaded_m_preopt.glb" := by decide
example :
    (optimize_glb_before_rigging ⟨1, false, 0, true, 0, true⟩
      ["/in/downloaded_m.glb"] "/in/downloaded_m.glb" "/in/downloaded_m_preopt.glb").steps.head? =
      some (.weld "/in/downloaded_m.glb" "/in/downloaded_m_welded.glb") := by decide

example :
    (handler envC2 jobC2).result.response =
      some (.jsonV (Json.obj [("texture_urls", Json.arr [texUploadedRec])])) := rfl

example :
    (handler envC2 jobC2).trace = [.putTexture "avatar-textures/m1/baseColor.png"] := rfl

/-! ### Association-list and object lemmas -/

theorem alookup_aset_self (l : List (String × Json)) (k : String) (v : Json) :
    alookup (aset l k v) k = some v := by
  induction l with
  | nil => simp [aset, alookup]
  | cons p rest ih =>
      obtain ⟨k1, w⟩ := p
      by_cases h : k1 = k
      · simp [aset, alookup, h]
      · simp [aset, alookup, h, ih]

theorem alookup_aset_ne (l : List (String × Json)) (k k' : String) (v : Json)
    (h : k' ≠ k) : alookup (aset l k v) k' = alookup l k' := by
  induction l with
  | nil => simp [aset, alookup, Ne.symm h]
  | cons p rest ih =>
      obtain ⟨k1, w⟩ := p
      by_cases h1 : k1 = k
      · subst h1
        simp [aset, alookup, Ne.symm h]
      · by_cases h2 : k1 = k'
        · simp [aset, alookup, h1, h2, h]
        · simp [aset, alookup, h1, h2, ih]

theorem alookup_adel_self (l : List (String × Json)) (k : String) :
    alookup (adel l k) k = none := by
  induction l with
  | nil => simp [adel, alookup]
  | cons p rest ih =>
      obtain ⟨k1, w⟩ := p
      by_cases h : k1 = k
      · simp [adel, h, ih]
      · simp [adel, alookup, h, ih]

theorem alookup_adel_ne (l : List (String × Json)) (k k' : String)
    (h : k' ≠ k) : alookup (adel l k) k' = alookup l k' := by
  induction l with
  | nil => simp [adel]
  | cons p rest ih =>
      obtain ⟨k1, w⟩ := p
      by_cases h1 : k1 = k
      · subst h1
        simp [adel, alookup, Ne.symm h, ih]
      · by_cases h2 : k1 = k'
        · simp [adel, alookup, h1, h2, h]
        · simp [adel, alookup, h1, h2, ih]

theorem get_setKey_self (j : Json) (k : String) (v : Json)
    (h : j.isObj = true) : (j.setKey k v).get? k = some v := by
  cases j <;> simp_all [Json.isObj, Json.setKey, Json.get?, alookup_aset_self]

theorem get_setKey_ne (j : Json) (k k' : String) (v : Json) (h : k' ≠ k) :
    (j.setKey k v).get? k' = j.get? k' := by
  cases j <;> simp [Json.setKey, Json.get?, alookup_aset_ne _ _ _ _ h]

theorem get_delKey_self (j : Json) (k : String) (h : j.isObj = true) :
    (j.delKey k).get? k = none := by
  cases j <;> simp_all [Json.isObj, Json.delKey, Json.get?, alookup_adel_self]

theorem get_delKey_ne (j : Json) (k k' : String) (h : k' ≠ k) :
    (j.delKey k).get? k' = j.get? k' := by
  cases j <;> simp [Json.delKey, Json.get?, alookup_adel_ne _ _ _ h]

theorem isObj_setKey (j : Json) (k : String) (v : Json) :
    (j.setKey k v).isObj = j.isObj := by
  cases j <;> simp [Json.setKey, Json.isObj]

theorem isObj_delKey (j : Json) (k : String) :
    (j.delKey k).isObj = j.isObj := by
  cases j <;> simp [Json.delKey, Json.isObj]

theorem pjoin_ne_empty (dir name : String) : pjoin dir name ≠ "" := by
  intro h
  have hd : (pjoin dir name).data = ("" : String).data := by rw [h]
  simp only [pjoin, String.data_append] at hd
  simpa using congrArg List.length hd

/-! ### C6: degenerate texture payloads -/

/-- C6: `upload_textures_to_s3` yields the empty upload list, attempts no
puts and raises nothing whenever the payload is the empty string, the
literal string `"[]"`, a string that fails JSON parsing, or a string
parsing to a falsy value (in particular an empty collection). -/
theorem upload_textures_degenerate (env : Env) (model_id s : String) :
    upload_textures_to_s3 env "" model_id = .ok ([], []) ∧
    upload_textures_to_s3 env "[]" model_id = .ok ([], []) ∧
    (env.parseJson s = none → s ≠ "" → s ≠ "[]" →
      upload_textures_to_s3 env s model_id = .ok ([], [])) ∧
    (∀ t, env.parseJson s = some t → jsonTruthy t = false →
      upload_textures_to_s3 env s model_id = .ok ([], [])) := by
  refine ⟨by simp [upload_textures_to_s3], by simp [upload_textures_to_s3], ?_, ?_⟩
  · intro hp h1 h2
    simp [upload_textures_to_s3, h1, h2, hp]
  · intro t hp ht
    by_cases h1 : s = ""
    · simp [upload_textures_to_s3, h1]
    · by_cases h2 : s = "[]"
      · simp [upload_textures_to_s3, h2]
      · simp [upload_textures_to_s3, h1, h2, hp, ht]

/-- Witness for C6 at concrete inputs: an unparsable payload and a payload
parsing to the empty list. -/
theorem upload_textures_degenerate_witness :
    upload_textures_to_s3 envC2 "" "m1" = .ok ([], []) ∧
    upload_textures_to_s3 envC2 "[]" "m1" = .ok ([], []) ∧
    upload_textures_to_s3 envC2 "garbage" "m1" = .ok ([], []) ∧
    upload_textures_to_s3 envC2 "empty-payload" "m1" = .ok ([], []) := by
  obtain ⟨h1, h2, h3, _⟩ := upload_textures_degenerate envC2 "m1" "garbage"
  obtain ⟨_, _, _, h4⟩ := upload_textures_degenerate envC2 "m1" "empty-payload"
  exact ⟨h1, h2, h3 rfl (by decide) (by decide), h4 (Json.arr []) rfl rfl⟩

/-! ### Artifact Locator lemmas (C4, C5) -/

theorem matchStep_fst_of_not_glb (dir model_id : String) (acc : String × String)
    (e : DirEntry) (h : glbMatch model_id e = false) :
    (matchStep dir model_id acc e).1 = acc.1 := by
  unfold matchStep glbMatch at *
  by_cases h1 : e.isFile <;> by_cases h2 : strContains e.name model_id <;>
    by_cases h3 : strEnds e.name ".glb" <;>
      by_cases h4 : strEnds e.name ".fbx" <;> simp_all

theorem matchStep_snd_of_not_fbx (dir model_id : String) (acc : String × String)
    (e : DirEntry) (h : fbxMatch model_id e = false) :
    (matchStep dir model_id acc e).2 = acc.2 := by
  unfold matchStep fbxMatch at *
  by_cases h1 : e.isFile <;> by_cases h2 : strContains e.name model_id <;>
    by_cases h3 : strEnds e.name ".glb" <;>
      by_cases h4 : strEnds e.name ".fbx" <;> simp_all

theorem foldl_matchStep_fst (dir model_id : String) (entries : List DirEntry)
    (acc : String × String)
    (h : ∀ e ∈ entries, glbMatch model_id e = false) :
    (entries.foldl (matchStep dir model_id) acc).1 = acc.1 := by
  induction entries generalizing acc with
  | nil => rfl
  | cons e rest ih =>
      rw [List.foldl_cons]
      rw [ih (matchStep dir model_id acc e) (fun x hx => h x (List.mem_cons_of_mem e hx))]
      exact matchStep_fst_of_not_glb dir model_id acc e (h e (List.mem_cons_self e rest))

theorem foldl_matchStep_snd (dir model_id : String) (entries : List DirEntry)
    (acc : String × String)
    (h : ∀ e ∈ entries, fbxMatch model_id e = false) :
    (entries.foldl (matchStep dir model_id) acc).2 = acc.2 := by
  induction entries generalizing acc with
  | nil => rfl
  | cons e rest ih =>
      rw [List.foldl_cons]
      rw [ih (matchStep dir model_id acc e) (fun x hx => h x (List.mem_cons_of_mem e hx))]
      exact matchStep_snd_of_not_fbx dir model_id acc e (h e (List.mem_cons_self e rest))

theorem pickLatest_none (ext : String) (entries : List DirEntry)
    (h : pickLatest ext entries = none) :
    ∀ e ∈ entries, globMatch ext e = false := by
  induction entries with
  | nil => simp
  | cons e rest ih =>
      intro x hx
      unfold pickLatest at h
      rcases hr : pickLatest ext rest with - | a
      · rw [hr] at h
        by_cases hg : globMatch ext e
        · simp [hg] at h
        · rcases List.mem_cons.mp hx with hxe | hxm
          · simpa [hxe] using hg
          · exact ih hr x hxm
      · rw [hr] at h
        by_cases hg : globMatch ext e
        · simp only [hg, if_true] at h
          split at h <;> simp_all
        · simp [hg] at h

theorem pickLatest_spec (ext : String) (entries : List DirEntry) (e : DirEntry)
    (h : pickLatest ext entries = some e) :
    e ∈ entries ∧ globMatch ext e = true ∧
      ∀ x ∈ entries, globMatch ext x = true → x.mtime ≤ e.mtime := by
  induction entries generalizing e with
  | nil => simp [pickLatest] at h
  | cons y rest ih =>
      unfold pickLatest at h
      rcases hr : pickLatest ext rest with - | a
      · rw [hr] at h
        by_cases hg : globMatch ext y
        · simp [hg] at h
          subst h
          refine ⟨List.mem_cons_self y rest, hg, ?_⟩
          intro x hx hgx
          rcases List.mem_cons.mp hx with hxe | hxm
          · subst hxe; exact le_refl _
          · exact absurd hgx (by simp [pickLatest_none ext rest hr x hxm])
        · simp [hg] at h
      · rw [hr] at h
        obtain ⟨hmem, hga, hmax⟩ := ih a hr
        by_cases hg : globMatch ext y
        · by_cases hlt : a.mtime > y.mtime
          · simp [hg, hlt] at h
            subst h
            refine ⟨List.mem_cons_of_mem y hmem, hga, ?_⟩
            intro x hx hgx
            rcases List.mem_cons.mp hx with hxe | hxm
            · subst hxe; exact le_of_lt hlt
            · exact hmax x hxm hgx
          · simp [hg, hlt] at h
            subst h
            refine ⟨List.mem_cons_self y rest, hg, ?_⟩
            intro x hx hgx
            rcases List.mem_cons.mp hx with hxe | hxm
            · subst hxe; exact le_refl _
            · exact le_trans (hmax x hxm hgx) (Nat.le_of_not_lt hlt)
        · simp [hg] at h
          subst h
          refine ⟨List.mem_cons_of_mem y hmem, hga, ?_⟩
          intro x hx hgx
          rcases List.mem_cons.mp hx with hxe | hxm
          · subst hxe; exact absurd hgx (by simp [hg])
          · exact hmax x hxm hgx

theorem pickLatest_isSome (ext : String) (entries : List DirEntry)
    (x : DirEntry) (hx : x ∈ entries) (hg : globMatch ext x = true) :
    ∃ e, pickLatest ext entries = some e := by
  rcases h : pickLatest ext entries with - | e
  · exact absurd hg (by simp [pickLatest_none ext entries h x hx])
  · exact ⟨e, rfl⟩

/-- C5: for an extension with no substring match, the locator falls back to
a file of that extension with the most recent modification time in the
directory (first-listed among ties); and a missing directory yields
all-absent results without raising. -/
theorem find_output_files_fallback (model_id dir : String)
    (entries : List DirEntry) :
    find_output_files model_id dir none = ("", "") ∧
    ((∀ e ∈ entries, glbMatch model_id e = false) →
      (∃ e ∈ entries, globMatch ".glb" e = true) →
      ∃ e, pickLatest ".glb" entries = some e ∧ e ∈ entries ∧
        globMatch ".glb" e = true ∧
        (∀ x ∈ entries, globMatch ".glb" x = true → x.mtime ≤ e.mtime) ∧
        (find_output_files model_id dir (some entries)).1 = pjoin dir e.name) ∧
    ((∀ e ∈ entries, fbxMatch model_id e = false) →
      (∃ e ∈ entries, globMatch ".fbx" e = true) →
      ∃ e, pickLatest ".fbx" entries = some e ∧ e ∈ entries ∧
        globMatch ".fbx" e = true ∧
        (∀ x ∈ entries, globMatch ".fbx" x = true → x.mtime ≤ e.mtime) ∧
        (find_output_files model_id dir (some entries)).2 = pjoin dir e.name) := by
  refine ⟨rfl, ?_, ?_⟩
  · intro hno hex
    obtain ⟨x, hx, hgx⟩ := hex
    obtain ⟨e, he⟩ := pickLatest_isSome ".glb" entries x hx hgx
    obtain ⟨hmem, hge, hmax⟩ := pickLatest_spec ".glb" entries e he
    refine ⟨e, he, hmem, hge, hmax, ?_⟩
    have hfst : (entries.foldl (matchStep dir model_id) ("", "")).1 = "" :=
      foldl_matchStep_fst dir model_id entries ("", "") hno
    unfold find_output_files
    simp only [hfst, he]
    simp
  · intro hno hex
    obtain ⟨x, hx, hgx⟩ := hex
    obtain ⟨e, he⟩ := pickLatest_isSome ".fbx" entries x hx hgx
    obtain ⟨hmem, hge, hmax⟩ := pickLatest_spec ".fbx" entries e he
    refine ⟨e, he, hmem, hge, hmax, ?_⟩
    have hsnd : (entries.foldl (matchStep dir model_id) ("", "")).2 = "" :=
      foldl_matchStep_snd dir model_id entries ("", "") hno
    unfold find_output_files
    simp only [hsnd, he]
    simp

/-- Witness for C5: a directory with no substring match for `m1`; the glb
fallback picks the most recently modified `.glb`, the fbx fallback the only
`.fbx`; a missing directory yields all-absent results. -/
theorem find_output_files_fallback_witness :
    find_output_files "m1" "/out" none = ("", "") ∧
    (find_output_files "m1" "/out"
        (some [⟨"a.glb", true, 1⟩, ⟨"b.glb", true, 5⟩, ⟨"c.fbx", true, 2⟩])).1 =
      "/out/b.glb" ∧
    (find_output_files "m1" "/out"
        (some [⟨"a.glb", true, 1⟩, ⟨"b.glb", true, 5⟩, ⟨"c.fbx", true, 2⟩])).2 =
      "/out/c.fbx" := by
  obtain ⟨h0, hglb, hfbx⟩ :=
    find_output_files_fallback "m1" "/out"
      [⟨"a.glb", true, 1⟩, ⟨"b.glb", true, 5⟩, ⟨"c.fbx", true, 2⟩]
  obtain ⟨e, hpick, -, -, -, hres⟩ :=
    hglb (by decide) ⟨⟨"a.glb", true, 1⟩, by decide, by decide⟩
  obtain ⟨f, hpickf, -, -, -, hresf⟩ :=
    hfbx (by decide) ⟨⟨"c.fbx", true, 2⟩, by decide, by decide⟩
  have he : e = ⟨"b.glb", true, 5⟩ := by
    have hv : pickLatest ".glb"
        [⟨"a.glb", true, 1⟩, ⟨"b.glb", true, 5⟩, ⟨"c.fbx", true, 2⟩] =
        some ⟨"b.glb", true, 5⟩ := by decide
    rw [hv] at hpick
    exact (Option.some.inj hpick).symm
  have hf : f = ⟨"c.fbx", true, 2⟩ := by
    have hv : pickLatest ".fbx"
        [⟨"a.glb", true, 1⟩, ⟨"b.glb", true, 5⟩, ⟨"c.fbx", true, 2⟩] =
        some ⟨"c.fbx", true, 2⟩ := by decide
    rw [hv] at hpickf
    exact (Option.some.inj hpickf).symm
  subst he hf
  exact ⟨h0, hres, hresf⟩

theorem foldl_matchStep_last (dir model_id : String) (entries : List DirEntry)
    (acc : String × String) (e : DirEntry)
    (h : (entries.filter (fun x => glbMatch model_id x)).getLast? = some e) :
    (entries.foldl (matchStep dir model_id) acc).1 = pjoin dir e.name := by
  induction entries generalizing acc with
  | nil => simp at h
  | cons x rest ih =>
      rw [List.foldl_cons]
      by_cases hx : glbMatch model_id x
      · rcases hrest : rest.filter (fun y => glbMatch model_id y) with - | ⟨y, ys⟩
        · have hxe : e = x := by
            rw [List.filter_cons_of_pos (by simpa using hx), hrest] at h
            simpa using h.symm
          subst hxe
          have hnone : ∀ y ∈ rest, glbMatch model_id y = false := by
            intro y hy
            by_contra hc
            have : y ∈ rest.filter (fun z => glbMatch model_id z) :=
              List.mem_filter.mpr ⟨hy, by simpa using hc⟩
            simp [hrest] at this
          rw [foldl_matchStep_fst dir model_id rest _ hnone]
          unfold matchStep glbMatch at *
          by_cases h1 : e.isFile <;> by_cases h2 : strContains e.name model_id <;>
            by_cases h3 : strEnds e.name ".glb" <;> simp_all
        · have h' : (rest.filter (fun y => glbMatch model_id y)).getLast? = some e := by
            rw [List.filter_cons_of_pos (by simpa using hx), hrest] at h
            rw [hrest]
            simpa using h
          exact ih _ h'
      · have h' : (rest.filter (fun y => glbMatch model_id y)).getLast? = some e := by
          rwa [List.filter_cons_of_neg (by simpa using hx)] at h
        exact ih _ h'

theorem foldl_matchStep_last_snd (dir model_id : String) (entries : List DirEntry)
    (acc : String × String) (e : DirEntry)
    (h : (entries.filter (fun x => fbxMatch model_id x)).getLast? = some e) :
    (entries.foldl (matchStep dir model_id) acc).2 = pjoin dir e.name := by
  induction entries generalizing acc with
  | nil => simp at h
  | cons x rest ih =>
      rw [List.foldl_cons]
      by_cases hx : fbxMatch model_id x
      · rcases hrest : rest.filter (fun y => fbxMatch model_id y) with - | ⟨y, ys⟩
        · have hxe : e = x := by
            rw [List.filter_cons_of_pos (by simpa using hx), hrest] at h
            simpa using h.symm
          subst hxe
          have hnone : ∀ y ∈ rest, fbxMatch model_id y = false := by
            intro y hy
            by_contra hc
            have : y ∈ rest.filter (fun z => fbxMatch model_id z) :=
              List.mem_filter.mpr ⟨hy, by simpa using hc⟩
            simp [hrest] at this
          rw [foldl_matchStep_snd dir model_id rest _ hnone]
          unfold matchStep fbxMatch at *
          by_cases h1 : e.isFile <;> by_cases h2 : strContains e.name model_id <;>
            by_cases h3 : strEnds e.name ".glb" <;>
            by_cases h4 : strEnds e.name ".fbx" <;> simp_all
        · have h' : (rest.filter (fun y => fbxMatch model_id y)).getLast? = some e := by
            rw [List.filter_cons_of_pos (by simpa using hx), hrest] at h
            rw [hrest]
            simpa using h
          exact ih _ h'
      · have h' : (rest.filter (fun y => fbxMatch model_id y)).getLast? = some e := by
          rwa [List.filter_cons_of_neg (by simpa using hx)] at h
        exact ih _ h'

/-- C4 amended: per extension, among several files containing the job
identifier the locator records the LAST one in listing order (each match
overwrites the previous), not the first; this holds independently for the
`.glb` component and for the `.fbx` component. -/
theorem find_output_files_last_match (model_id dir : String)
    (entries : List DirEntry) :
    (∀ e, (entries.filter (fun x => glbMatch model_id x)).getLast? = some e →
      (find_output_files model_id dir (some entries)).1 = pjoin dir e.name) ∧
    (∀ f, (entries.filter (fun x => fbxMatch model_id x)).getLast? = some f →
      (find_output_files model_id dir (some entries)).2 = pjoin dir f.name) := by
  constructor
  · intro e h
    have hfst : (entries.foldl (matchStep dir model_id) ("", "")).1 = pjoin dir e.name :=
      foldl_matchStep_last dir model_id entries ("", "") e h
    unfold find_output_files
    by_cases hc : (entries.foldl (matchStep dir model_id) ("", "")).1 = "" ||
        (entries.foldl (matchStep dir model_id) ("", "")).2 = ""
    · simp only [hc, if_true]
      have hne : (entries.foldl (matchStep dir model_id) ("", "")).1 ≠ "" := by
        rw [hfst]; exact pjoin_ne_empty dir e.name
      simp only [hne, if_false]
      exact hfst
    · simp only [hc, if_false]
      exact hfst
  · intro f h
    have hsnd : (entries.foldl (matchStep dir model_id) ("", "")).2 = pjoin dir f.name :=
      foldl_matchStep_last_snd dir model_id entries ("", "") f h
    unfold find_output_files
    by_cases hc : (entries.foldl (matchStep dir model_id) ("", "")).1 = "" ||
        (entries.foldl (matchStep dir model_id) ("", "")).2 = ""
    · simp only [hc, if_true]
      have hne : (entries.foldl (matchStep dir model_id) ("", "")).2 ≠ "" := by
        rw [hsnd]; exact pjoin_ne_empty dir f.name
      simp only [hne, if_false]
      exact hsnd
    · simp only [hc, if_false]
      exact hsnd

/-- Witness for the amended C4 at a concrete directory listing with two
matching files of each extension: both components resolve to the
second-listed match. -/
theorem find_output_files_last_match_witness :
    (find_output_files "m1" "/out"
        (some [⟨"m1_a.glb", true, 0⟩, ⟨"m1_a.fbx", true, 0⟩,
               ⟨"m1_b.glb", true, 0⟩, ⟨"m1_b.fbx", true, 0⟩])).1 =
      "/out/m1_b.glb" ∧
    (find_output_files "m1" "/out"
        (some [⟨"m1_a.glb", true, 0⟩, ⟨"m1_a.fbx", true, 0⟩,
               ⟨"m1_b.glb", true, 0⟩, ⟨"m1_b.fbx", true, 0⟩])).2 =
      "/out/m1_b.fbx" := by
  obtain ⟨hg, hf⟩ := find_output_files_last_match "m1" "/out"
    [⟨"m1_a.glb", true, 0⟩, ⟨"m1_a.fbx", true, 0⟩,
     ⟨"m1_b.glb", true, 0⟩, ⟨"m1_b.fbx", true, 0⟩]
  constructor
  · have h := hg ⟨"m1_b.glb", true, 0⟩ (by decide)
    simpa [pjoin] using h
  · have h := hf ⟨"m1_b.fbx", true, 0⟩ (by decide)
    simpa [pjoin] using h

/-- C4 counterexample: with two `.glb` files and two `.fbx` files all
containing the job identifier, the locator returns the second-listed file
of each extension, not the first-listed one. -/
theorem find_output_files_first_match_counterexample :
    find_output_files "m1" "/out"
        (some [⟨"m1_a.glb", true, 0⟩, ⟨"m1_a.fbx", true, 0⟩,
               ⟨"m1_b.glb", true, 0⟩, ⟨"m1_b.fbx", true, 0⟩]) =
      ("/out/m1_b.glb", "/out/m1_b.fbx") ∧
    ("/out/m1_b.glb" : String) ≠ "/out/m1_a.glb" ∧
    ("/out/m1_b.fbx" : String) ≠ "/out/m1_a.fbx" := by
  exact ⟨by decide, by decide, by decide⟩

/-! ### Mesh Optimizer lemmas (C9) -/

theorem mem_fsAdd_self (fs : List String) (p : String) : p ∈ fsAdd fs p := by
  unfold fsAdd
  by_cases h : p ∈ fs <;> simp [h]

theorem mem_fsAdd_of_mem (fs : List String) (p q : String) (h : p ∈ fs) :
    p ∈ fsAdd fs q := by
  unfold fsAdd
  by_cases hq : q ∈ fs <;> simp [hq, h]

theorem cleanupTemps_mem (input output : String) (fs temps : List String)
    (p : String) (hp : p ∈ fs) (hio : p = input ∨ p = output) :
    p ∈ (cleanupTemps input output fs temps).1 := by
  induction temps generalizing fs with
  | nil => exact hp
  | cons f rest ih =>
      unfold cleanupTemps
      by_cases hc : (f ≠ input && f ≠ output && decide (f ∈ fs)) = true
      · simp only [hc, if_true]
        refine ih (fs.filter (· ≠ f)) ?_
        have hfi : f ≠ input := by
          have := Bool.and_elim_left (Bool.and_elim_left hc)
          simpa using this
        have hfo : f ≠ output := by
          have := Bool.and_elim_right (Bool.and_elim_left hc)
          simpa using this
        refine List.mem_filter.mpr ⟨hp, ?_⟩
        rcases hio with h | h <;> subst h <;> simp [Ne.symm hfi, Ne.symm hfo]
      · simp only [hc, if_false]
        exact ih fs hp

theorem mem_fsAfterWeld (oc : OptOutcome) (fs0 : List String)
    (input p : String) (h : p ∈ fs0) : p ∈ fsAfterWeld oc fs0 input := by
  unfold fsAfterWeld
  by_cases hc : oc.weldCreates <;> simp [hc, h, mem_fsAdd_of_mem]

theorem mem_fsAfterSimplify (oc : OptOutcome) (fs0 : List String)
    (input p : String) (h : p ∈ fsAfterWeld oc fs0 input) :
    p ∈ fsAfterSimplify oc fs0 input := by
  unfold fsAfterSimplify
  by_cases hc : oc.simplifyCreates <;> simp [hc, h, mem_fsAdd_of_mem]

theorem mem_fsAfterResize (oc : OptOutcome) (fs0 : List String)
    (input output p : String) (h : p ∈ fsAfterSimplify oc fs0 input) :
    p ∈ fsAfterResize oc fs0 input output := by
  unfold fsAfterResize
  by_cases hc : oc.resizeCreates <;> simp [hc, h, mem_fsAdd_of_mem]

theorem weldOut_mem (oc : OptOutcome) (fs0 : List String) (input : String)
    (hmem : input ∈ fs0) : weldOut oc fs0 input ∈ fsAfterWeld oc fs0 input := by
  unfold weldOut
  by_cases hc : (oc.weldRC ≠ 0 || temp_welded input ∉ fsAfterWeld oc fs0 input) = true
  · simp only [hc, if_true]
    exact mem_fsAfterWeld oc fs0 input input hmem
  · simp only [hc, if_false]
    simp only [Bool.or_eq_true, not_or] at hc
    simpa using hc.2

theorem simplifyOut_mem (oc : OptOutcome) (fs0 : List String) (input : String)
    (hmem : input ∈ fs0) :
    simplifyOut oc fs0 input ∈ fsAfterSimplify oc fs0 input := by
  unfold simplifyOut
  by_cases hc : (oc.simplifyRC ≠ 0 ||
      temp_simplified input ∉ fsAfterSimplify oc fs0 input) = true
  · simp only [hc, if_true]
    exact mem_fsAfterSimplify oc fs0 input _ (weldOut_mem oc fs0 input hmem)
  · simp only [hc, if_false]
    simp only [Bool.or_eq_true, not_or] at hc
    simpa using hc.2

theorem weldOut_of_fail (oc : OptOutcome) (fs0 : List String) (input : String)
    (h : oc.weldRC ≠ 0 ∨ temp_welded input ∉ fsAfterWeld oc fs0 input) :
    weldOut oc fs0 input = input := by
  unfold weldOut
  rw [if_pos (by simpa using h)]

/-- C9: on the optimizer pipeline, whenever the downloaded input exists,
the pipeline returns the declared output path and ends with an existing
file there regardless of stage outcomes; a failed weld (non-zero exit or
missing output) makes the simplify stage consume the original downloaded
file; and a failed resize copies the pre-resize file to the declared
output path. -/
theorem optimize_glb_pipeline (oc : OptOutcome) (fs : List String)
    (input output : String)
    (hin : input ≠ "") (hmem : input ∈ fs) (hout : output ≠ "") :
    (optimize_glb_before_rigging oc fs input output).path = output ∧
    output ∈ (optimize_glb_before_rigging oc fs input output).fs ∧
    ((oc.weldRC ≠ 0 ∨ temp_welded input ∉ fsAfterWeld oc fs input) →
      OptStep.simplify input (temp_simplified input) ∈
        (optimize_glb_before_rigging oc fs input output).steps) ∧
    ((oc.resizeRC ≠ 0 ∨ output ∉ fsAfterResize oc fs input output) →
      OptStep.resize (simplifyOut oc fs input) output ∈
        (optimize_glb_before_rigging oc fs input output).steps ∧
      OptStep.copy (simplifyOut oc fs input) output ∈
        (optimize_glb_before_rigging oc fs input output).steps) := by
  have hguard : ¬(input = "" || input ∉ fs) = true := by simp [hin, hmem]
  have hs3 : simplifyOut oc fs input ∈ fsAfterResize oc fs input output :=
    mem_fsAfterResize oc fs input output _ (simplifyOut_mem oc fs input hmem)
  have hcopy : copy2 (fsAfterResize oc fs input output) (simplifyOut oc fs input)
      output = some (fsAdd (fsAfterResize oc fs input output) output) := by
    unfold copy2
    rw [if_pos hs3]
  by_cases hres : (oc.resizeRC ≠ 0 || output ∉ fsAfterResize oc fs input output) = true
  · have hval : optimize_glb_before_rigging oc fs input output =
        ⟨output,
         (cleanupTemps input output
            (fsAdd (fsAfterResize oc fs input output) output)
            [weldOut oc fs input, simplifyOut oc fs input]).1,
         [OptStep.weld input (temp_welded input),
          OptStep.simplify (weldOut oc fs input) (temp_simplified input),
          OptStep.resize (simplifyOut oc fs input) output] ++
           [.copy (simplifyOut oc fs input) output] ++
           (cleanupTemps input output
              (fsAdd (fsAfterResize oc fs input output) output)
              [weldOut oc fs input, simplifyOut oc fs input]).2⟩ := by
      unfold optimize_glb_before_rigging
      rw [if_neg hguard]
      simp only [hout, if_false, hres, if_true, hcopy]
    rw [hval]
    refine ⟨rfl, ?_, ?_, ?_⟩
    · exact cleanupTemps_mem input output _ _ output
        (mem_fsAdd_self _ output) (Or.inr rfl)
    · intro hweld
      rw [weldOut_of_fail oc fs input hweld]
      simp
    · intro _
      simp
  · have hval : optimize_glb_before_rigging oc fs input output =
        ⟨output,
         (cleanupTemps input output (fsAfterResize oc fs input output)
            [weldOut oc fs input, simplifyOut oc fs input]).1,
         [OptStep.weld input (temp_welded input),
          OptStep.simplify (weldOut oc fs input) (temp_simplified input),
          OptStep.resize (simplifyOut oc fs input) output] ++
           (cleanupTemps input output (fsAfterResize oc fs input output)
              [weldOut oc fs input, simplifyOut oc fs input]).2⟩ := by
      unfold optimize_glb_before_rigging
      rw [if_neg hguard]
      simp only [hout, if_false, hres]
      simp
    rw [hval]
    refine ⟨rfl, ?_, ?_, ?_⟩
    · have houtfs3 : output ∈ fsAfterResize oc fs input output := by
        simp only [Bool.or_eq_true, not_or] at hres
        simpa using hres.2
      exact cleanupTemps_mem input output _ _ output houtfs3 (Or.inr rfl)
    · intro hweld
      rw [weldOut_of_fail oc fs input hweld]
      simp
    · intro hfail
      exact absurd (by simpa using hfail) hres

/-- Witness for C9: the weld stage exits non-zero and the resize stage
leaves no output; the simplify step consumes the original download and the
declared output path exists at the end. -/
theorem optimize_glb_pipeline_witness :
    (optimize_glb_before_rigging ⟨1, false, 0, true, 1, false⟩
        ["/in/downloaded_m.glb"] "/in/downloaded_m.glb" "/in/m_preopt.glb").path =
      "/in/m_preopt.glb" ∧
    "/in/m_preopt.glb" ∈
      (optimize_glb_before_rigging ⟨1, false, 0, true, 1, false⟩
        ["/in/downloaded_m.glb"] "/in/downloaded_m.glb" "/in/m_preopt.glb").fs ∧
    OptStep.simplify "/in/downloaded_m.glb" "/in/downloaded_m_simplified.glb" ∈
      (optimize_glb_before_rigging ⟨1, false, 0, true, 1, false⟩
        ["/in/downloaded_m.glb"] "/in/downloaded_m.glb" "/in/m_preopt.glb").steps ∧
    OptStep.copy "/in/downloaded_m_simplified.glb" "/in/m_preopt.glb" ∈
      (optimize_glb_before_rigging ⟨1, false, 0, true, 1, false⟩
        ["/in/downloaded_m.glb"] "/in/downloaded_m.glb" "/in/m_preopt.glb").steps := by
  obtain ⟨h1, h2, h3, h4⟩ :=
    optimize_glb_pipeline ⟨1, false, 0, true, 1, false⟩ ["/in/downloaded_m.glb"]
      "/in/downloaded_m.glb" "/in/m_preopt.glb" (by decide) (by decide) (by decide)
  refine ⟨h1, h2, ?_, ?_⟩
  · have := h3 (Or.inl (by decide))
    simpa using this
  · have := (h4 (Or.inl (by decide))).2
    have heq : simplifyOut ⟨1, false, 0, true, 1, false⟩ ["/in/downloaded_m.glb"]
        "/in/downloaded_m.glb" = "/in/downloaded_m_simplified.glb" := by decide
    rwa [heq] at this

/-! ### C1: the Job Result Envelope -/

/-- C1: every invocation yields a well-formed envelope — status is
`success` or `error` with exactly one of response/error present — and a
failed dispatch (timeout or exception) yields the error envelope with no
locate, compress or upload operation recorded. -/
theorem handler_envelope (env : Env) (job : Json) (_hwf : jobWf job = true) :
    ((handler env job).result.status = "success" ∨
      (handler env job).result.status = "error") ∧
    ((handler env job).result.status = "success" →
      (handler env job).result.response.isSome ∧
        (handler env job).result.error = none) ∧
    ((handler env job).result.status = "error" →
      (handler env job).result.error.isSome ∧
        (handler env job).result.response = none) ∧
    (∀ msg, env.post = .error msg →
      (handler env job).result = mkError msg ∧ (handler env job).trace = []) := by
  unfold handler
  rcases hpost : env.post with msg | resp
  · simp [mkError]
  · simp only [hpost]
    by_cases hct : strStarts resp.content_type "application/json" = true
    · simp only [hct, if_true]
      rcases hjson : resp.jsonBody with - | api
      · simp [mkError]
      · simp only [hjson]
        split
        · simp [mkError]
        · simp [mkSuccess]
    · simp only [hct, if_false]
      simp [mkSuccess]

/-- Witness for C1: a timed-out dispatch produces exactly the error
envelope and records no operation. -/
theorem handler_envelope_witness :
    (handler envTimeout jobC2).result =
      mkError "Request timed out after 300 seconds" ∧
    (handler envTimeout jobC2).trace = [] := by
  exact (handler_envelope envTimeout jobC2 (by decide)).2.2.2
    "Request timed out after 300 seconds" rfl

/-! ### C2: endpoints matching neither workflow kind -/

/-- C2 counterexample: the endpoint `/prompt` matches neither workflow
kind, yet the JSON response is NOT returned verbatim: the texture pipeline
runs anyway — a texture is uploaded, the top-level `textures_json` field is
deleted and `texture_urls` is added. -/
theorem plain_endpoint_rewrite_counterexample :
    strContains "/prompt" "rig-avatar" = false ∧
    strContains "/prompt" "fit-clothing" = false ∧
    jobEndpoint jobC2 = "/prompt" ∧
    (handler envC2 jobC2).trace = [.putTexture "avatar-textures/m1/baseColor.png"] ∧
    respJsonOf (handler envC2 jobC2) =
      some (Json.obj [("texture_urls", Json.arr [texUploadedRec])]) ∧
    (respJsonOf (handler envC2 jobC2)).bind (fun j => j.get? "textures_json") =
      none ∧
    apiC2.get? "textures_json" = some (Json.str "tex-payload-1") := by
  exact ⟨by decide, by decide, rfl, rfl, rfl, rfl, rfl⟩

/-- C2 amended: for endpoints matching neither workflow kind no rig-avatar
or clothing enrichment occurs, but the texture stage still runs on every
JSON response; the response is returned verbatim only on the non-JSON
branch or when the texture stage yields no successful upload. -/
theorem plain_endpoint_verbatim (env : Env) (job : Json) (resp : HttpResp)
    (tr : List Op)
    (_hwf : jobWf job = true)
    (hrig : strContains (jobEndpoint job) "rig-avatar" = false)
    (hclo : strContains (jobEndpoint job) "fit-clothing" = false)
    (hpost : env.post = .ok resp) :
    (strStarts resp.content_type "application/json" = false →
      (handler env job).result.response = some (.textV resp.text)) ∧
    (∀ api, strStarts resp.content_type "application/json" = true →
      resp.jsonBody = some api →
      textureStage env (jobModelId env.now job) (extractTexturesJson api) =
        .ok ([], tr) →
      (handler env job).result.response = some (.jsonV api)) := by
  constructor
  · intro hct
    unfold handler
    simp [hpost, hct, mkSuccess]
  · intro api hct hjson htex
    unfold handler
    simp only [hpost, hct, if_true, hjson]
    unfold processJsonResponse
    rw [htex]
    simp only [hrig, hclo]
    simp [stripTextures, mkSuccess]

/-- Witness for the amended C2: a plain-endpoint job whose response holds
no texture payload is returned verbatim in both branches. -/
theorem plain_endpoint_verbatim_witness :
    (handler { envC2 with
        post := .ok ⟨200, "text/plain", none, "raw-body"⟩ } jobC2).result.response =
      some (.textV "raw-body") ∧
    (handler { envC2 with
        post := .ok ⟨200, "application/json", some (Json.obj [("ok", Json.bool true)]),
          ""⟩ } jobC2).result.response =
      some (.jsonV (Json.obj [("ok", Json.bool true)])) := by
  constructor
  · exact (plain_endpoint_verbatim _ jobC2 ⟨200, "text/plain", none, "raw-body"⟩ []
      (by decide) (by decide) (by decide) rfl).1 (by decide)
  · exact (plain_endpoint_verbatim _ jobC2
      ⟨200, "application/json", some (Json.obj [("ok", Json.bool true)]), ""⟩ []
      (by decide) (by decide) (by decide) rfl).2 (Json.obj [("ok", Json.bool true)])
      (by decide) rfl rfl

/-! ### C3: stripping embedded texture payloads -/

/-- C3 counterexample: the payload was extracted from a sequence-shaped
`outputs` entry and a texture uploaded successfully, yet the rewritten
response still embeds the raw payload as the third element of that
entry — only dict-shaped entries are stripped. -/
theorem strip_sequence_payload_counterexample :
    (handler envC3 jobC2).trace = [.putTexture "avatar-textures/m1/baseColor.png"] ∧
    respJsonOf (handler envC3 jobC2) =
      some (Json.obj
        [("outputs", Json.obj
           [("9", Json.arr [Json.str "a.fbx", Json.str "a.glb",
                            Json.str "tex-payload-1"])]),
         ("texture_urls", Json.arr [texUploadedRec])]) ∧
    (respJsonOf (handler envC3 jobC2)).bind (fun j => j.get? "outputs") =
      some (Json.obj [("9", Json.arr [Json.str "a.fbx", Json.str "a.glb",
                                      Json.str "tex-payload-1"])]) := by
  exact ⟨rfl, rfl, rfl⟩

/-- C3 amended: when at least one texture uploaded, the rewrite attaches
the uploaded list, deletes the top-level `textures_json` and strips the
payload from every DICT-shaped `outputs` entry; sequence-shaped entries
keep their embedded payload; with no successful upload the response is
left unmodified. -/
theorem stripTextures_spec (api : Json) (tus : List Json) :
    (tus = [] → stripTextures api tus = api) ∧
    (api.isObj = true → tus ≠ [] →
      (stripTextures api tus).get? "textures_json" = none ∧
      (stripTextures api tus).get? "texture_urls" = some (Json.arr tus) ∧
      (∀ outs, (stripTextures api tus).get? "outputs" = some (Json.obj outs) →
        ∀ k v, (k, v) ∈ outs → v.isObj = true →
          v.get? "textures_json" = none)) := by
  constructor
  · intro h
    subst h
    rfl
  · intro hobj htus
    obtain ⟨t, ts, rfl⟩ : ∃ t ts, tus = t :: ts := by
      cases tus with
      | nil => exact absurd rfl htus
      | cons t ts => exact ⟨t, ts, rfl⟩
    obtain ⟨fields, rfl⟩ : ∃ fields, api = Json.obj fields := by
      cases api with
      | obj fields => exact ⟨fields, rfl⟩
      | null => simp [Json.isObj] at hobj
      | bool b => simp [Json.isObj] at hobj
      | num n => simp [Json.isObj] at hobj
      | str s => simp [Json.isObj] at hobj
      | arr xs => simp [Json.isObj] at hobj
    have hstrip : stripTextures (Json.obj fields) (t :: ts) =
        (let a1 := (Json.obj fields).setKey "texture_urls" (Json.arr (t :: ts))
         let a2 :=
           if (a1.get? "textures_json").isSome then a1.delKey "textures_json"
           else a1
         match a2.get? "outputs" with
         | some (Json.obj outs) =>
             a2.setKey "outputs" (Json.obj (outs.map fun kv =>
               if kv.2.isObj then (kv.1, kv.2.delKey "textures_json") else kv))
         | _ => a2) := rfl
    set a1 := (Json.obj fields).setKey "texture_urls" (Json.arr (t :: ts)) with ha1
    have ha1obj : a1.isObj = true := by
      rw [ha1, isObj_setKey]
      rfl
    set a2 :=
      if (a1.get? "textures_json").isSome then a1.delKey "textures_json"
      else a1 with ha2
    have ha2obj : a2.isObj = true := by
      rw [ha2]
      by_cases hc : (a1.get? "textures_json").isSome
      · rw [if_pos hc, isObj_delKey]
        exact ha1obj
      · rw [if_neg hc]
        exact ha1obj
    have ha2tj : a2.get? "textures_json" = none := by
      rw [ha2]
      by_cases hc : (a1.get? "textures_json").isSome
      · rw [if_pos hc]
        exact get_delKey_self a1 "textures_json" ha1obj
      · rw [if_neg hc]
        exact Option.not_isSome_iff_eq_none.mp hc
    have ha2tu : a2.get? "texture_urls" = some (Json.arr (t :: ts)) := by
      have h1 : a1.get? "texture_urls" = some (Json.arr (t :: ts)) := by
        rw [ha1]
        exact get_setKey_self (Json.obj fields) "texture_urls" _ rfl
      rw [ha2]
      by_cases hc : (a1.get? "textures_json").isSome
      · rw [if_pos hc, get_delKey_ne a1 "textures_json" "texture_urls" (by decide)]
        exact h1
      · rw [if_neg hc]
        exact h1
    rw [hstrip]
    simp only [← ha1, ← ha2]
    rcases houts : a2.get? "outputs" with - | v0
    · simp only [houts]
      exact ⟨ha2tj, ha2tu, fun outs h => absurd h (by simp)⟩
    · cases v0 with
      | obj outs0 =>
          simp only [houts]
          refine ⟨?_, ?_, ?_⟩
          · rw [get_setKey_ne a2 "outputs" "textures_json" _ (by decide)]
            exact ha2tj
          · rw [get_setKey_ne a2 "outputs" "texture_urls" _ (by decide)]
            exact ha2tu
          · intro outs houts2 k v hmem hvobj
            rw [get_setKey_self a2 "outputs" _ ha2obj] at houts2
            have houtseq : outs = outs0.map fun kv =>
                if kv.2.isObj then (kv.1, kv.2.delKey "textures_json") else kv := by
              have h2 := Option.some.inj houts2
              injection h2 with h3
              exact h3.symm
            subst houtseq
            obtain ⟨⟨k0, v0⟩, hkv0, hkveq⟩ := List.mem_map.mp hmem
            by_cases hv0 : v0.isObj = true
            · simp only [hv0, if_true] at hkveq
              have hveq : v = v0.delKey "textures_json" := congrArg Prod.snd hkveq |>.symm
              rw [hveq]
              exact get_delKey_self v0 "textures_json" hv0
            · simp only [hv0] at hkveq
              have hveq : v = v0 := congrArg Prod.snd hkveq |>.symm
              rw [hveq] at hvobj
              simp [hvobj] at hv0
      | null =>
          simp only [houts]
          exact ⟨ha2tj, ha2tu, fun outs h => absurd h (by simp)⟩
      | bool b =>
          simp only [houts]
          exact ⟨ha2tj, ha2tu, fun outs h => absurd h (by simp)⟩
      | num n =>
          simp only [houts]
          exact ⟨ha2tj, ha2tu, fun outs h => absurd h (by simp)⟩
      | str s =>
          simp only [houts]
          exact ⟨ha2tj, ha2tu, fun outs h => absurd h (by simp)⟩
      | arr xs =>
          simp only [houts]
          exact ⟨ha2tj, ha2tu, fun outs h => absurd h (by simp)⟩

/-- Witness for the amended C3 at a concrete response: top-level payload
deleted, uploaded list attached, dict-shaped entry stripped. -/
theorem stripTextures_spec_witness :
    stripTextures (Json.obj [("ok", Json.bool true)]) [] =
      Json.obj [("ok", Json.bool true)] ∧
    (stripTextures
        (Json.obj [("textures_json", Json.str "p"),
                   ("outputs", Json.obj [("7", Json.obj
                      [("textures_json", Json.str "p"), ("glb", Json.str "x")])])])
        [texUploadedRec]).get? "textures_json" = none ∧
    (stripTextures
        (Json.obj [("textures_json", Json.str "p"),
                   ("outputs", Json.obj [("7", Json.obj
                      [("textures_json", Json.str "p"), ("glb", Json.str "x")])])])
        [texUploadedRec]).get? "texture_urls" = some (Json.arr [texUploadedRec]) := by
  obtain ⟨h1, -⟩ := stripTextures_spec (Json.obj [("ok", Json.bool true)]) []
  obtain ⟨-, h2⟩ := stripTextures_spec
    (Json.obj [("textures_json", Json.str "p"),
               ("outputs", Json.obj [("7", Json.obj
                  [("textures_json", Json.str "p"), ("glb", Json.str "x")])])])
    [texUploadedRec]
  obtain ⟨ha, hb, -⟩ := h2 rfl (by simp)
  exact ⟨h1 rfl, ha, hb⟩

/-! ### C7: rig-avatar output fields -/

theorem stripTextures_isObj (api : Json) (tus : List Json) :
    (stripTextures api tus).isObj = api.isObj := by
  unfold stripTextures
  cases tus with
  | nil => rfl
  | cons t ts =>
      cases api with
      | obj fields =>
          simp only []
          split
          · rw [isObj_setKey]
            split
            · rw [isObj_delKey, isObj_setKey]
            · rw [isObj_setKey]
          · split
            · rw [isObj_delKey, isObj_setKey]
            · rw [isObj_setKey]
      | null => rfl
      | bool b => rfl
      | num n => rfl
      | str s => rfl
      | arr xs => rfl

theorem upload_rigged_url (env : Env) (fs : List String)
    (path mid ft : String) :
    (upload_rigged_model_to_s3 env fs path mid ft).1 = "" ∨
    ((upload_rigged_model_to_s3 env fs path mid ft).1 = s3Url (rigKey mid ft) ∧
      env.s3PutOk (rigKey mid ft) = true) := by
  unfold upload_rigged_model_to_s3
  by_cases h1 : path = "" ∨ path ∉ fs
  · rw [if_pos h1]
    exact Or.inl rfl
  · rw [if_neg h1]
    by_cases h2 : env.s3PutOk (rigKey mid ft) = true
    · rw [if_pos h2]
      exact Or.inr ⟨rfl, h2⟩
    · rw [if_neg h2]
      exact Or.inl rfl

theorem upload_rigged_url_pos (env : Env) (fs : List String)
    (path mid ft : String) (hp : path ≠ "") (hmem : path ∈ fs)
    (hput : env.s3PutOk (rigKey mid ft) = true) :
    (upload_rigged_model_to_s3 env fs path mid ft).1 = s3Url (rigKey mid ft) := by
  have h1 : ¬(path = "" ∨ path ∉ fs) := by push_neg; exact ⟨hp, hmem⟩
  unfold upload_rigged_model_to_s3
  rw [if_neg h1, if_pos hput]

theorem rigGlbStep_url (env : Env) (fs : List String) (optPath : Option String)
    (mid p : String) :
    ((rigGlbStep env fs optPath mid p).1 = "" ∨
      ((rigGlbStep env fs optPath mid p).1 = s3Url (rigKey mid "glb") ∧
        env.s3PutOk (rigKey mid "glb") = true)) ∧
    (p = "" → (rigGlbStep env fs optPath mid p).1 = "") := by
  unfold rigGlbStep
  by_cases hp : p ≠ ""
  · rw [if_pos hp]
    exact ⟨upload_rigged_url env _ _ mid "glb", fun h => absurd h hp⟩
  · rw [if_neg hp]
    exact ⟨Or.inl rfl, fun _ => rfl⟩

theorem rigGlbStep_url_pos (env : Env) (fs : List String)
    (optPath : Option String) (mid p : String) (hp : p ≠ "")
    (hc1 : (compress_rigged_glb fs p).1 ≠ "")
    (hc2 : (compress_rigged_glb fs p).1 ∈ (compress_rigged_glb fs p).2)
    (hput : env.s3PutOk (rigKey mid "glb") = true) :
    (rigGlbStep env fs optPath mid p).1 = s3Url (rigKey mid "glb") := by
  unfold rigGlbStep
  rw [if_pos hp]
  exact upload_rigged_url_pos env (compress_rigged_glb fs p).2
    (compress_rigged_glb fs p).1 mid "glb" hc1 hc2 hput

theorem rigFbxStep_url (env : Env) (fs : List String) (mid p : String) :
    ((rigFbxStep env fs mid p).1 = "" ∨
      ((rigFbxStep env fs mid p).1 = s3Url (rigKey mid "fbx") ∧
        env.s3PutOk (rigKey mid "fbx") = true)) ∧
    (p = "" → (rigFbxStep env fs mid p).1 = "") := by
  unfold rigFbxStep
  by_cases hp : p ≠ ""
  · rw [if_pos hp]
    exact ⟨upload_rigged_url env _ _ mid "fbx", fun h => absurd h hp⟩
  · rw [if_neg hp]
    exact ⟨Or.inl rfl, fun _ => rfl⟩

theorem rigFbxStep_url_pos (env : Env) (fs : List String) (mid p : String)
    (hp : p ≠ "") (hmem : p ∈ fs)
    (hput : env.s3PutOk (rigKey mid "fbx") = true) :
    (rigFbxStep env fs mid p).1 = s3Url (rigKey mid "fbx") := by
  unfold rigFbxStep
  rw [if_pos hp]
  exact upload_rigged_url_pos env fs p mid "fbx" hp hmem hput

theorem rigStage_spec (env : Env) (fs : List String) (optPath : Option String)
    (mid : String) (api : Json) (hobj : api.isObj = true) :
    ∃ g f,
      (rigStage env fs optPath mid api).1.get? "glb_output_path" =
        some (Json.str g) ∧
      (rigStage env fs optPath mid api).1.get? "fbx_output_path" =
        some (Json.str f) ∧
      (g = "" ∨ (g = s3Url (rigKey mid "glb") ∧
        env.s3PutOk (rigKey mid "glb") = true)) ∧
      (f = "" ∨ (f = s3Url (rigKey mid "fbx") ∧
        env.s3PutOk (rigKey mid "fbx") = true)) ∧
      ((find_output_files mid "/opt/ComfyUI/output" env.listing).1 = "" → g = "") ∧
      ((find_output_files mid "/opt/ComfyUI/output" env.listing).2 = "" → f = "") ∧
      (rigStage env fs optPath mid api).1.isObj = true ∧
      g = (rigGlbStep env fs optPath mid
        (find_output_files mid "/opt/ComfyUI/output" env.listing).1).1 ∧
      f = (rigFbxStep env
        (rigGlbStep env fs optPath mid
          (find_output_files mid "/opt/ComfyUI/output" env.listing).1).2.1 mid
        (find_output_files mid "/opt/ComfyUI/output" env.listing).2).1 := by
  simp only [rigStage]
  rw [if_pos hobj]
  refine ⟨(rigGlbStep env fs optPath mid
      (find_output_files mid "/opt/ComfyUI/output" env.listing).1).1,
    (rigFbxStep env
      (rigGlbStep env fs optPath mid
        (find_output_files mid "/opt/ComfyUI/output" env.listing).1).2.1 mid
      (find_output_files mid "/opt/ComfyUI/output" env.listing).2).1,
    ?_, ?_, ?_, ?_, ?_, ?_, ?_, rfl, rfl⟩
  · rw [get_setKey_ne _ "fbx_output_path" "glb_output_path" _ (by decide)]
    exact get_setKey_self api "glb_output_path" _ hobj
  · exact get_setKey_self _ "fbx_output_path" _ (by rw [isObj_setKey]; exact hobj)
  · exact (rigGlbStep_url env fs optPath mid _).1
  · exact (rigFbxStep_url env _ mid _).1
  · exact (rigGlbStep_url env fs optPath mid _).2
  · exact (rigFbxStep_url env _ mid _).2
  · rw [isObj_setKey, isObj_setKey]
    exact hobj

theorem clothingStage_get_preserved (env : Env) (fs : List String)
    (uid gid : String) (api : Json) (k : String)
    (hk1 : k ≠ "clothing_url") (hk2 : k ≠ "user_id") (hk3 : k ≠ "garment_id") :
    (clothingStage env fs uid gid api).1.get? k = api.get? k := by
  unfold clothingStage
  cases api with
  | obj fields =>
      simp only []
      split
      · split
        · rw [get_setKey_ne _ "garment_id" k _ hk3,
            get_setKey_ne _ "user_id" k _ hk2,
            get_setKey_ne _ "clothing_url" k _ hk1]
        · rfl
      · rfl
  | null => rfl
  | bool b => rfl
  | num n => rfl
  | str s => rfl
  | arr xs => rfl

theorem handler_json_branch (env : Env) (job : Json) (resp : HttpResp)
    (api : Json)
    (hpost : env.post = .ok resp)
    (hct : strStarts resp.content_type "application/json" = true)
    (hjson : resp.jsonBody = some api) :
    ((handler env job).result, (handler env job).trace) =
      (match processJsonResponse env (preOptPath env job)
          (jobModelId env.now job) (jobUserId job) (jobGarmentId env.now job)
          (strContains (jobEndpoint job) "rig-avatar")
          (strContains (jobEndpoint job) "fit-clothing") api with
       | .error e => (mkError e, [])
       | .ok out => (mkSuccess resp.status_code (.jsonV out.1), out.2)) := by
  unfold handler
  simp only [hpost, hct, if_true, hjson]
  split <;> rfl

/-- C7 amended: for every rig-avatar job with a JSON object response whose
texture stage does not raise (a truthy non-string texture payload aborts
the whole job into the error envelope instead, see the counterexample),
the final response carries both `glb_output_path` and `fbx_output_path` as
string fields: the constructed storage URL when the artifact was located,
the file to upload exists, and the storage put succeeds; and the empty
string (never an absent field) when the artifact was missing or its upload
failed. -/
theorem rig_output_fields (env : Env) (job : Json) (resp : HttpResp)
    (api : Json) (tus : List Json) (tr : List Op)
    (_hwf : jobWf job = true)
    (hrig : strContains (jobEndpoint job) "rig-avatar" = true)
    (hpost : env.post = .ok resp)
    (hct : strStarts resp.content_type "application/json" = true)
    (hjson : resp.jsonBody = some api)
    (hobj : api.isObj = true)
    (htex : textureStage env (jobModelId env.now job)
      (extractTexturesJson api) = .ok (tus, tr)) :
    ∃ r g f, (handler env job).result.response = some (.jsonV r) ∧
      r.get? "glb_output_path" = some (Json.str g) ∧
      r.get? "fbx_output_path" = some (Json.str f) ∧
      (g = "" ∨ (g = s3Url (rigKey (jobModelId env.now job) "glb") ∧
        env.s3PutOk (rigKey (jobModelId env.now job) "glb") = true)) ∧
      (f = "" ∨ (f = s3Url (rigKey (jobModelId env.now job) "fbx") ∧
        env.s3PutOk (rigKey (jobModelId env.now job) "fbx") = true)) ∧
      ((find_output_files (jobModelId env.now job) "/opt/ComfyUI/output"
          env.listing).1 = "" → g = "") ∧
      ((find_output_files (jobModelId env.now job) "/opt/ComfyUI/output"
          env.listing).2 = "" → f = "") ∧
      (∀ gp, (find_output_files (jobModelId env.now job) "/opt/ComfyUI/output"
          env.listing).1 = gp → gp ≠ "" →
        (compress_rigged_glb env.fs gp).1 ≠ "" →
        (compress_rigged_glb env.fs gp).1 ∈ (compress_rigged_glb env.fs gp).2 →
        env.s3PutOk (rigKey (jobModelId env.now job) "glb") = true →
        g = s3Url (rigKey (jobModelId env.now job) "glb")) ∧
      (∀ fp, (find_output_files (jobModelId env.now job) "/opt/ComfyUI/output"
          env.listing).2 = fp → fp ≠ "" →
        fp ∈ (rigGlbStep env env.fs (preOptPath env job) (jobModelId env.now job)
          (find_output_files (jobModelId env.now job) "/opt/ComfyUI/output"
            env.listing).1).2.1 →
        env.s3PutOk (rigKey (jobModelId env.now job) "fbx") = true →
        f = s3Url (rigKey (jobModelId env.now job) "fbx")) := by
  have heq := handler_json_branch env job resp api hpost hct hjson
  rcases hpj : processJsonResponse env (preOptPath env job)
      (jobModelId env.now job) (jobUserId job) (jobGarmentId env.now job)
      (strContains (jobEndpoint job) "rig-avatar")
      (strContains (jobEndpoint job) "fit-clothing") api with e | out
  · exfalso
    unfold processJsonResponse at hpj
    rw [htex] at hpj
    simp at hpj
  · have heq2 : ((handler env job).result, (handler env job).trace) =
        (mkSuccess resp.status_code (.jsonV out.1), out.2) := by
      rw [heq, hpj]
    have hres : (handler env job).result =
        mkSuccess resp.status_code (.jsonV out.1) := congrArg Prod.fst heq2
    unfold processJsonResponse at hpj
    rw [htex] at hpj
    simp only [hrig, if_true] at hpj
    have hout := Except.ok.inj hpj
    obtain ⟨g, f, hg, hf, hgc, hfc, hge, hfe, hobj2, hgdef, hfdef⟩ :=
      rigStage_spec env env.fs (preOptPath env job) (jobModelId env.now job)
        (stripTextures api tus) (by rw [stripTextures_isObj]; exact hobj)
    refine ⟨out.1, g, f, ?_, ?_, ?_, hgc, hfc, hge, hfe, ?_, ?_⟩
    · rw [hres]
      rfl
    · rw [← congrArg Prod.fst hout]
      by_cases hclo : strContains (jobEndpoint job) "fit-clothing" = true
      · simp only [hclo, if_true]
        rw [clothingStage_get_preserved env _ _ _ _ "glb_output_path"
          (by decide) (by decide) (by decide)]
        exact hg
      · simp only [hclo, if_false]
        exact hg
    · rw [← congrArg Prod.fst hout]
      by_cases hclo : strContains (jobEndpoint job) "fit-clothing" = true
      · simp only [hclo, if_true]
        rw [clothingStage_get_preserved env _ _ _ _ "fbx_output_path"
          (by decide) (by decide) (by decide)]
        exact hf
      · simp only [hclo, if_false]
        exact hf
    · intro gp hgp hne hc1 hc2 hput
      subst hgp
      rw [hgdef]
      exact rigGlbStep_url_pos env env.fs (preOptPath env job)
        (jobModelId env.now job) _ hne hc1 hc2 hput
    · intro fp hfp hne hmem hput
      subst hfp
      rw [hfdef]
      exact rigFbxStep_url_pos env _ (jobModelId env.now job) _ hne hmem hput

/-- Witness for the amended C7: a rig-avatar job locating both artifacts
with every put succeeding yields the two concrete non-empty storage
URLs. -/
theorem rig_output_fields_witness :
    ∃ r, (handler envC7 jobC7).result.response = some (.jsonV r) ∧
      r.get? "glb_output_path" =
        some (Json.str (s3Url (rigKey "m1" "glb"))) ∧
      r.get? "fbx_output_path" =
        some (Json.str (s3Url (rigKey "m1" "fbx"))) := by
  obtain ⟨r, g, f, hr, hg, hf, -, -, -, -, hgp, hfp⟩ :=
    rig_output_fields envC7 jobC7
      ⟨200, "application/json", some (Json.obj []), ""⟩
      (Json.obj []) [] [] (by decide) (by decide) rfl (by decide) rfl rfl rfl
  have hgv : g = s3Url (rigKey "m1" "glb") :=
    hgp "/opt/ComfyUI/output/m1.glb" (by decide) (by decide) (by decide)
      (by decide) rfl
  have hfv : f = s3Url (rigKey "m1" "fbx") :=
    hfp "/opt/ComfyUI/output/m1.fbx" (by decide) (by decide) (by decide) rfl
  rw [hgv] at hg
  rw [hfv] at hf
  exact ⟨r, hr, hg, hf⟩

/-- C7 counterexample: a rig-avatar job whose JSON-object response carries
a truthy non-string texture payload aborts into the error envelope, so the
final response has no `glb_output_path` or `fbx_output_path` field at
all. -/
theorem rig_output_fields_counterexample :
    strContains (jobEndpoint jobC7) "rig-avatar" = true ∧
    apiC7tex.isObj = true ∧
    (handler envC7tex jobC7).result.status = "error" ∧
    (handler envC7tex jobC7).result.response = none ∧
    (handler envC7tex jobC7).result.error =
      some "json.loads of a non-string payload raises TypeError" := by
  exact ⟨by decide, rfl, rfl, rfl, rfl⟩

/-! ### C8: the clothing outputs scan -/

theorem clothingScanKeys_eq (env : Env) (fs : List String)
    (uid gid : String) (fields : List (String × Json)) (ks : List String) :
    clothingScanKeys env fs uid gid fields ks =
      match firstKeyPath fields ks with
      | some p => (some (upload_clothing_to_s3 env fs p uid gid).1,
                   (upload_clothing_to_s3 env fs p uid gid).2)
      | none => (none, []) := by
  induction ks with
  | nil => rfl
  | cons k ks ih =>
      unfold clothingScanKeys firstKeyPath
      rcases h : alookup fields k with - | v
      · exact ih
      · cases v with
        | str p =>
            by_cases hp : strEnds p ".glb" = true
            · simp only [hp, if_true]
            · simp only [hp, if_false]
              exact ih
        | null => exact ih
        | bool b => exact ih
        | num n => exact ih
        | arr xs => exact ih
        | obj fs2 => exact ih

/-- C8 counterexample: a dict-shaped path entry does NOT stop the outputs
scan — the later sequence-shaped entry is uploaded as well, so two puts are
recorded for the one clothing job. -/
theorem clothing_scan_stops_counterexample :
    (handler envC8 jobC8).trace =
      [.putClothing "avatars/u1/clothing/g1.glb",
       .putClothing "avatars/u1/clothing/g1.glb"] ∧
    (respJsonOf (handler envC8 jobC8)).bind (fun j => j.get? "clothing_url") =
      some (Json.str (s3Url "avatars/u1/clothing/g1.glb")) := by
  exact ⟨rfl, rfl⟩

/-- C8 amended: the outputs scan stops at the first SEQUENCE-shaped
path-bearing entry (later entries are never examined), while dict-shaped
path-bearing entries are uploaded without stopping the scan and each later
upload overwrites the accumulated clothing URL (the last upload wins); and
`clothing_url`, `user_id`, `garment_id` are attached to the response
exactly when the final accumulated URL is non-empty. -/
theorem clothing_scan_spec :
    (∀ (env : Env) (fs : List String) (uid gid : String)
        (pre : List (String × Json)) (k : String) (node : Json)
        (post : List (String × Json)) (acc : Option String) (p : String),
        seqPBPath node = some p →
        (∀ x ∈ pre, seqPBPath x.2 = none) →
        clothingScan env fs uid gid (pre ++ (k, node) :: post) acc =
          clothingScan env fs uid gid (pre ++ [(k, node)]) acc) ∧
    (∀ (env : Env) (fs : List String) (uid gid : String)
        (entries : List (String × Json)) (acc : Option String),
        (∀ x ∈ entries, seqPBPath x.2 = none) →
        (clothingScan env fs uid gid entries acc).1 =
          match (entries.filterMap fun x => dictPBPath x.2).getLast? with
          | some p => some ((upload_clothing_to_s3 env fs p uid gid).1)
          | none => acc) ∧
    (∀ (env : Env) (fs : List String) (uid gid : String)
        (fields outs : List (String × Json)) (u : String),
        alookup fields "outputs" = some (Json.obj outs) →
        (clothingScan env fs uid gid outs none).1 = some u →
        u ≠ "" →
        (clothingStage env fs uid gid (Json.obj fields)).1.get? "clothing_url" =
          some (Json.str u) ∧
        (clothingStage env fs uid gid (Json.obj fields)).1.get? "user_id" =
          some (Json.str uid) ∧
        (clothingStage env fs uid gid (Json.obj fields)).1.get? "garment_id" =
          some (Json.str gid)) ∧
    (∀ (env : Env) (fs : List String) (uid gid : String)
        (fields outs : List (String × Json)),
        alookup fields "outputs" = some (Json.obj outs) →
        ((clothingScan env fs uid gid outs none).1 = none ∨
          (clothingScan env fs uid gid outs none).1 = some "") →
        (clothingStage env fs uid gid (Json.obj fields)).1 = Json.obj fields) := by
  refine ⟨?_, ?_, ?_, ?_⟩
  · intro env fs uid gid pre k node post acc p hseq hpre
    induction pre generalizing acc with
    | nil =>
        obtain ⟨q, rest, hq, rfl⟩ :
            ∃ q rest, strEnds q ".glb" = true ∧
              node = Json.arr (Json.str q :: rest) := by
          cases node with
          | arr xs =>
              cases xs with
              | nil => simp [seqPBPath] at hseq
              | cons x rest =>
                  cases x with
                  | str q =>
                      by_cases hq : strEnds q ".glb" = true
                      · exact ⟨q, rest, hq, rfl⟩
                      · simp [seqPBPath, hq] at hseq
                  | null => simp [seqPBPath] at hseq
                  | bool b => simp [seqPBPath] at hseq
                  | num n => simp [seqPBPath] at hseq
                  | arr ys => simp [seqPBPath] at hseq
                  | obj fs2 => simp [seqPBPath] at hseq
          | null => simp [seqPBPath] at hseq
          | bool b => simp [seqPBPath] at hseq
          | num n => simp [seqPBPath] at hseq
          | str s => simp [seqPBPath] at hseq
          | obj fs2 => simp [seqPBPath] at hseq
        simp only [List.nil_append, clothingScan, hq, if_true]
    | cons x pre ih =>
        obtain ⟨kx, nx⟩ := x
        have hx : seqPBPath nx = none := hpre (kx, nx) (List.mem_cons_self _ _)
        have hpre2 : ∀ y ∈ pre, seqPBPath y.2 = none :=
          fun y hy => hpre y (List.mem_cons_of_mem _ hy)
        simp only [List.cons_append]
        cases nx with
        | arr xs =>
            cases xs with
            | nil =>
                simp only [clothingScan]
                exact ih acc hpre2
            | cons y ys =>
                cases y with
                | str q =>
                    have hq : strEnds q ".glb" = false := by
                      by_contra hc
                      simp [seqPBPath, eq_true_of_ne_false hc] at hx
                    simp only [clothingScan, hq, Bool.false_eq_true, if_false]
                    exact ih acc hpre2
                | null =>
                    simp only [clothingScan]
                    exact ih acc hpre2
                | bool b =>
                    simp only [clothingScan]
                    exact ih acc hpre2
                | num n =>
                    simp only [clothingScan]
                    exact ih acc hpre2
                | arr zs =>
                    simp only [clothingScan]
                    exact ih acc hpre2
                | obj fs2 =>
                    simp only [clothingScan]
                    exact ih acc hpre2
        | obj fields =>
            simp only [clothingScan]
            rw [ih _ hpre2]
        | null =>
            simp only [clothingScan]
            exact ih acc hpre2
        | bool b =>
            simp only [clothingScan]
            exact ih acc hpre2
        | num n =>
            simp only [clothingScan]
            exact ih acc hpre2
        | str s =>
            simp only [clothingScan]
            exact ih acc hpre2
  · intro env fs uid gid entries acc hseq
    induction entries generalizing acc with
    | nil => rfl
    | cons x entries ih =>
        obtain ⟨kx, nx⟩ := x
        have hx : seqPBPath nx = none := hseq (kx, nx) (List.mem_cons_self _ _)
        have hseq2 : ∀ y ∈ entries, seqPBPath y.2 = none :=
          fun y hy => hseq y (List.mem_cons_of_mem _ hy)
        cases nx with
        | obj fields =>
            rcases hfk : firstKeyPath fields pathKeys with - | p
            · have hd : dictPBPath (Json.obj fields) = none := by
                simp [dictPBPath, hfk]
              simp only [clothingScan, clothingScanKeys_eq, hfk,
                List.filterMap_cons, hd]
              exact ih acc hseq2
            · have hd : dictPBPath (Json.obj fields) = some p := by
                simp [dictPBPath, hfk]
              simp only [clothingScan, clothingScanKeys_eq, hfk,
                List.filterMap_cons, hd]
              rw [ih (some ((upload_clothing_to_s3 env fs p uid gid).1)) hseq2]
              rcases hfm : (entries.filterMap fun x => dictPBPath x.2) with - | ⟨q, qs⟩
              · rw [hfm]
                simp
              · rw [hfm, List.getLast?_cons_cons]
                rcases hl : (q :: qs).getLast? with - | r
                · rw [List.getLast?_eq_none_iff] at hl
                  simp at hl
                · rfl
        | arr xs =>
            cases xs with
            | nil =>
                simp only [clothingScan, List.filterMap_cons, dictPBPath]
                exact ih acc hseq2
            | cons y ys =>
                cases y with
                | str q =>
                    have hq : strEnds q ".glb" = false := by
                      by_contra hc
                      simp [seqPBPath, eq_true_of_ne_false hc] at hx
                    simp only [clothingScan, hq, Bool.false_eq_true, if_false,
                      List.filterMap_cons, dictPBPath]
                    exact ih acc hseq2
                | null =>
                    simp only [clothingScan, List.filterMap_cons, dictPBPath]
                    exact ih acc hseq2
                | bool b =>
                    simp only [clothingScan, List.filterMap_cons, dictPBPath]
                    exact ih acc hseq2
                | num n =>
                    simp only [clothingScan, List.filterMap_cons, dictPBPath]
                    exact ih acc hseq2
                | arr zs =>
                    simp only [clothingScan, List.filterMap_cons, dictPBPath]
                    exact ih acc hseq2
                | obj fs2 =>
                    simp only [clothingScan, List.filterMap_cons, dictPBPath]
                    exact ih acc hseq2
        | null =>
            simp only [clothingScan, List.filterMap_cons, dictPBPath]
            exact ih acc hseq2
        | bool b =>
            simp only [clothingScan, List.filterMap_cons, dictPBPath]
            exact ih acc hseq2
        | num n =>
            simp only [clothingScan, List.filterMap_cons, dictPBPath]
            exact ih acc hseq2
        | str s =>
            simp only [clothingScan, List.filterMap_cons, dictPBPath]
            exact ih acc hseq2
  · intro env fs uid gid fields outs u houts hscan hu
    unfold clothingStage
    simp only [houts, hscan]
    rw [if_pos hu]
    refine ⟨?_, ?_, ?_⟩
    · rw [get_setKey_ne _ "garment_id" "clothing_url" _ (by decide),
        get_setKey_ne _ "user_id" "clothing_url" _ (by decide)]
      exact get_setKey_self (Json.obj fields) "clothing_url" (Json.str u) rfl
    · rw [get_setKey_ne _ "garment_id" "user_id" _ (by decide)]
      exact get_setKey_self
        ((Json.obj fields).setKey "clothing_url" (Json.str u)) "user_id"
        (Json.str uid) (by rw [isObj_setKey]; rfl)
    · exact get_setKey_self
        (((Json.obj fields).setKey "clothing_url" (Json.str u)).setKey
          "user_id" (Json.str uid)) "garment_id" (Json.str gid)
        (by rw [isObj_setKey, isObj_setKey]; rfl)
  · intro env fs uid gid fields outs houts hfail
    unfold clothingStage
    simp only [houts]
    rcases hfail with h | h
    · rw [h]
    · rw [h]
      simp

/-- Witness for the amended C8: entries after the sequence-shaped entry
are never examined, and the attach happens with the last upload URL. -/
theorem clothing_scan_spec_witness :
    clothingScan envC8 envC8.fs "u1" "g1"
        [("1", Json.obj [("output_path", Json.str "/out/a.glb")]),
         ("2", Json.arr [Json.str "/out/b.glb"]),
         ("3", Json.arr [Json.str "/out/c.glb"])] none =
      clothingScan envC8 envC8.fs "u1" "g1"
        [("1", Json.obj [("output_path", Json.str "/out/a.glb")]),
         ("2", Json.arr [Json.str "/out/b.glb"])] none ∧
    (clothingStage envC8 envC8.fs "u1" "g1" apiC8).1.get? "clothing_url" =
      some (Json.str (s3Url "avatars/u1/clothing/g1.glb")) := by
  constructor
  · exact clothing_scan_spec.1 envC8 envC8.fs "u1" "g1"
      [("1", Json.obj [("output_path", Json.str "/out/a.glb")])] "2"
      (Json.arr [Json.str "/out/b.glb"]) [("3", Json.arr [Json.str "/out/c.glb"])]
      none "/out/b.glb" (by decide)
      (by
        intro x hx
        simp at hx
        subst hx
        decide)
  · exact (clothing_scan_spec.2.2.1 envC8 envC8.fs "u1" "g1"
      [("outputs", Json.obj
        [("1", Json.obj [("output_path", Json.str "/out/a.glb")]),
         ("2", Json.arr [Json.str "/out/b.glb"])])]
      [("1", Json.obj [("output_path", Json.str "/out/a.glb")]),
       ("2", Json.arr [Json.str "/out/b.glb"])]
      (s3Url "avatars/u1/clothing/g1.glb") rfl rfl (by decide)).1

/-! ### C10: in-place mutation of the request body -/

theorem handler_effects (env : Env) (job : Json) :
    (handler env job).dispatched =
      (match preOptPath env job with
       | some opt => setMeshUrl (jobBody job) opt
       | none => jobBody job) ∧
    (handler env job).jobAfter =
      (match preOptPath env job with
       | some _ =>
           match job.get? "input" with
           | some ji =>
               match ji.get? "body" with
               | some _ => job.setKey "input" (ji.setKey "body"
                   (match preOptPath env job with
                    | some opt => setMeshUrl (jobBody job) opt
                    | none => jobBody job))
               | none => job.setKey "input"
                   (match preOptPath env job with
                    | some opt => setMeshUrl (jobBody job) opt
                    | none => jobBody job)
           | none => job
       | none => job) := by
  unfold handler
  rcases hpost : env.post with m | resp
  · simp [hpost]
  · simp only [hpost]
    by_cases hct : strStarts resp.content_type "application/json" = true
    · simp only [hct, if_true]
      rcases hjson : resp.jsonBody with - | api
      · simp [hjson]
      · simp only [hjson]
        constructor
        · split <;> rfl
        · split <;> rfl
    · rw [if_neg hct]
      exact ⟨rfl, rfl⟩

theorem jobWf_parts (job ji : Json) (hwf : jobWf job = true)
    (hji : job.get? "input" = some ji) :
    job.isObj = true ∧ ji.isObj = true ∧ (ji.getD "body" ji).isObj = true ∧
    (∀ bi, (ji.getD "body" ji).get? "input" = some bi → bi.isObj = true) := by
  unfold jobWf at hwf
  rw [hji] at hwf
  simp only [Bool.and_eq_true] at hwf
  obtain ⟨hjob, hrest⟩ := hwf
  obtain ⟨⟨hjiobj, -⟩, hbody⟩ := hrest
  obtain ⟨hbodyobj, hinner⟩ := hbody
  refine ⟨hjob, hjiobj, hbodyobj, ?_⟩
  intro bi hbi
  rw [hbi] at hinner
  simp only [Bool.and_eq_true] at hinner
  exact hinner.1.1.1.1

/-- C10: for every rig-avatar job with a non-empty mesh URL whose download
succeeds, the handler mutates the caller-supplied job in place — the
request body forwarded to the rendering service and the job object visible
afterwards both hold the local optimized path in place of the remote URL,
and it is never restored; when the endpoint is not rig-avatar, the mesh
URL is empty, or the download fails, the job object and the dispatched
body are left untouched. -/
theorem mesh_url_mutation (env : Env) (job : Json) (hwf : jobWf job = true) :
    (∀ opt, preOptPath env job = some opt →
      opt = env.optimize (env.download (jobMeshUrl job))
          (strReplace (env.download (jobMeshUrl job)) ".glb" "_preopt.glb") ∧
      jobMeshUrl (handler env job).jobAfter = opt ∧
      bodyMeshUrl (handler env job).dispatched = opt) ∧
    (strContains (jobEndpoint job) "rig-avatar" = true →
      jobMeshUrl job ≠ "" → env.download (jobMeshUrl job) ≠ "" →
      ∃ opt, preOptPath env job = some opt) ∧
    ((strContains (jobEndpoint job) "rig-avatar" = false ∨
        jobMeshUrl job = "" ∨ env.download (jobMeshUrl job) = "") →
      (handler env job).jobAfter = job ∧
      (handler env job).dispatched = jobBody job) := by
  obtain ⟨hdisp, hafter⟩ := handler_effects env job
  refine ⟨?_, ?_, ?_⟩
  · intro opt hopt
    -- the optimized-path equation
    have hcond : (strContains (jobEndpoint job) "rig-avatar" &&
        jobMeshUrl job ≠ "" && env.download (jobMeshUrl job) ≠ "") = true := by
      by_contra hc
      unfold preOptPath at hopt
      rw [if_neg hc] at hopt
      exact Option.noConfusion hopt
    have hoptval : opt = env.optimize (env.download (jobMeshUrl job))
        (strReplace (env.download (jobMeshUrl job)) ".glb" "_preopt.glb") := by
      unfold preOptPath at hopt
      rw [if_pos hcond] at hopt
      exact (Option.some.inj hopt).symm
    simp only [Bool.and_eq_true] at hcond
    have hm : jobMeshUrl job ≠ "" := by simpa using hcond.1.2
    -- the request body holds an input object carrying the mesh url
    have hbi : ∃ bi, (jobBody job).get? "input" = some bi := by
      rcases hb : (jobBody job).get? "input" with - | bi
      · exfalso
        apply hm
        unfold jobMeshUrl jobData
        unfold Json.getD
        rw [hb]
        rfl
      · exact ⟨bi, rfl⟩
    obtain ⟨bi, hbi⟩ := hbi
    have hji : ∃ ji, job.get? "input" = some ji := by
      rcases hj : job.get? "input" with - | ji
      · exfalso
        apply hm
        unfold jobMeshUrl jobData jobBody jobInput
        unfold Json.getD
        rw [hj]
        rfl
      · exact ⟨ji, rfl⟩
    obtain ⟨ji, hji⟩ := hji
    obtain ⟨hjob, hjiobj, hbodyobj, hbiobj⟩ := jobWf_parts job ji hwf hji
    have hbodyeq : jobBody job = ji.getD "body" ji := by
      unfold jobBody jobInput
      unfold Json.getD
      rw [hji]
      simp
    have hbiobj2 : bi.isObj = true := by
      apply hbiobj
      rw [← hbodyeq]
      exact hbi
    have hbodyobj2 : (jobBody job).isObj = true := by
      rw [hbodyeq]
      exact hbodyobj
    have hmesh : setMeshUrl (jobBody job) opt =
        (jobBody job).setKey "input" (bi.setKey "mesh_url" (Json.str opt)) := by
      unfold setMeshUrl
      rw [hbi]
    have hbm : bodyMeshUrl (setMeshUrl (jobBody job) opt) = opt := by
      rw [hmesh]
      unfold bodyMeshUrl
      unfold Json.getD
      rw [get_setKey_self (jobBody job) "input" _ hbodyobj2]
      simp only [Option.getD_some]
      unfold jstrD
      rw [get_setKey_self bi "mesh_url" _ hbiobj2]
    refine ⟨hoptval, ?_, ?_⟩
    · -- the mutated job still shows the optimized path
      rw [hafter]
      simp only [hopt, hji]
      rcases hjb : ji.get? "body" with - | b
      · -- body defaulted to job_input itself
        simp only [hjb]
        have hbody2 : jobBody job = ji := by
          rw [hbodyeq]
          unfold Json.getD
          rw [hjb]
          rfl
        rw [hmesh, hbody2]
        unfold jobMeshUrl jobData jobBody jobInput jstrD
        unfold Json.getD
        rw [get_setKey_self job "input" _ hjob]
        simp only [Option.getD_some]
        rw [get_setKey_ne ji "input" "body" _ (by decide)]
        rw [hjb]
        simp only [Option.getD_none]
        rw [get_setKey_self ji "input" _ hjiobj]
        simp only [Option.getD_some]
        rw [get_setKey_self bi "mesh_url" _ hbiobj2]
      · -- body is a separate object under the `body` key
        simp only [hjb]
        have hbody2 : jobBody job = b := by
          rw [hbodyeq]
          unfold Json.getD
          rw [hjb]
          rfl
        have hbobj : b.isObj = true := by
          rw [← hbody2]
          exact hbodyobj2
        rw [hmesh, hbody2]
        unfold jobMeshUrl jobData jobBody jobInput jstrD
        unfold Json.getD
        rw [get_setKey_self job "input" _ hjob]
        simp only [Option.getD_some]
        rw [get_setKey_self ji "body" _ hjiobj]
        simp only [Option.getD_some]
        rw [get_setKey_self b "input" _ hbobj]
        simp only [Option.getD_some]
        rw [get_setKey_self bi "mesh_url" _ hbiobj2]
    · rw [hdisp]
      simp only [hopt]
      exact hbm
  · intro hrig hm hdl
    refine ⟨env.optimize (env.download (jobMeshUrl job))
      (strReplace (env.download (jobMeshUrl job)) ".glb" "_preopt.glb"), ?_⟩
    unfold preOptPath
    rw [if_pos (by simp [hrig, hm, hdl])]
  · intro hcase
    have hnone : preOptPath env job = none := by
      unfold preOptPath
      rcases hcase with h | h | h <;>
        · rw [if_neg]
          simp [h]
    rw [hafter, hdisp, hnone]
    exact ⟨rfl, rfl⟩

/-- Witness for C10: the dispatched body and the caller-visible job both
hold the local pre-optimized path; with a failing download the job is
untouched. -/
theorem mesh_url_mutation_witness :
    preOptPath envC10 jobC10 = some "/in/downloaded_mesh_preopt.glb" ∧
    jobMeshUrl (handler envC10 jobC10).jobAfter =
      "/in/downloaded_mesh_preopt.glb" ∧
    bodyMeshUrl (handler envC10 jobC10).dispatched =
      "/in/downloaded_mesh_preopt.glb" ∧
    (handler { envC10 with download := fun _ => "" } jobC10).jobAfter =
      jobC10 := by
  obtain ⟨hpos, -, -⟩ := mesh_url_mutation envC10 jobC10 (by decide)
  obtain ⟨-, h2, h3⟩ := hpos "/in/downloaded_mesh_preopt.glb" (by decide)
  have h4 := (mesh_url_mutation { envC10 with download := fun _ => "" } jobC10
    (by decide)).2.2 (Or.inr (Or.inr rfl))
  exact ⟨by decide, h2, h3, h4.1⟩

end UniRig
